import Mathlib

/-!
Verification of the SMART-PROCUREMENT-AGENT repository.

This file gives a shallow embedding, in Lean 4, of the pure core of the
repository's Python code (the supplier-pricing, fx-rates and notification
MCP tools and the agent's orchestration layer), and proves or refutes the
frozen claims C1..C10 about it.

Network and LLM interactions are modelled as explicit oracle parameters
(the value the awaited call would produce, or an exception); everything
else — JSON handling, Python truthiness, `str`/`int`/`float` conversion,
dict access, slicing, sorting and the control flow of every function the
claims mention — is translated directly from the source files.

Python exceptions are modelled with `Except Unit`: `.error ()` stands for
"this code raised", and `try/except` blocks in the source become matches
on that value.
-/

namespace SPA

/-- JSON-ish dynamic values, modelling the Python values that flow through
the tools (`Dict[str, Any]`, results of `json.loads`, etc.).  Python
distinguishes `int` and `float`; we keep both, with `float` carried as a
rational (the claims never depend on binary rounding of floats). -/
inductive JVal where
  | null : JVal
  | bool : Bool → JVal
  | int : Int → JVal
  | float : Rat → JVal
  | str : String → JVal
  | arr : List JVal → JVal
  | obj : List (String × JVal) → JVal
deriving Repr, Inhabited

namespace JVal

/-- Python truthiness: `bool(v)`. -/
def truthy : JVal → Bool
  | .null => false
  | .bool b => b
  | .int n => n ≠ 0
  | .float q => q ≠ 0
  | .str s => s ≠ ""
  | .arr xs => !xs.isEmpty
  | .obj kvs => !kvs.isEmpty

/-- Model of `d.get(k)` on a dict represented as a key/value list (first match wins,
as Python dict keys are unique). Returns `none` when the key is absent. -/
def lookup (kvs : List (String × JVal)) (k : String) : Option JVal :=
  match kvs with
  | [] => none
  | (k₀, v₀) :: rest => if k₀ = k then some v₀ else lookup rest k

/-- Model of `v.get(k, default)` where `v` must be a dict; models Python `dict.get`. -/
def getD (v : JVal) (k : String) (dflt : JVal) : JVal :=
  match v with
  | .obj kvs => (lookup kvs k).getD dflt
  | _ => dflt

/-- Model of `v.get(k)` — `dict.get` with default `None`. -/
def get (v : JVal) (k : String) : JVal := v.getD k .null

/-- Model of `v.get(k)` on a value that the source assumes to be a dict: raises
(`AttributeError`) when `v` is not a dict. -/
def getE (v : JVal) (k : String) : Except Unit JVal :=
  match v with
  | .obj kvs => .ok ((lookup kvs k).getD .null)
  | _ => .error ()

/-- Model of `v.get(k, dflt)` raising when `v` is not a dict. -/
def getDE (v : JVal) (k : String) (dflt : JVal) : Except Unit JVal :=
  match v with
  | .obj kvs => .ok ((lookup kvs k).getD dflt)
  | _ => .error ()

/-- Model of `k in v` for a dict `v`. -/
def hasKey (v : JVal) (k : String) : Bool :=
  match v with
  | .obj kvs => (lookup kvs k).isSome
  | _ => false

end JVal

/-- Python `a or b`. -/
def pyOr (a b : JVal) : JVal := if a.truthy then a else b

/-- Integer-literal parse used by Python `int(str)`: optional surrounding
whitespace, optional sign, one or more digits. -/
def parseIntChars : List Char → Option Int
  | [] => none
  | cs =>
    let cs := cs.dropWhile Char.isWhitespace
    let cs := (cs.reverse.dropWhile Char.isWhitespace).reverse
    let (sign, digits) :=
      match cs with
      | '-' :: rest => ((-1 : Int), rest)
      | '+' :: rest => ((1 : Int), rest)
      | rest => ((1 : Int), rest)
    if digits.isEmpty ∨ ¬ digits.all Char.isDigit then none
    else some (sign * (digits.foldl (fun acc c => acc * 10 + (c.toNat - '0'.toNat)) 0 : Nat))

/-- Truncation toward zero, as Python `int(float)`. -/
def ratTrunc (q : Rat) : Int := if q ≥ 0 then q.floor else q.ceil

/-- Python `int(v)`: `none` models the `TypeError`/`ValueError` raise. -/
def pyInt : JVal → Option Int
  | .bool b => some (if b then 1 else 0)
  | .int n => some n
  | .float q => some (ratTrunc q)
  | .str s => parseIntChars s.toList
  | _ => none

/-- Decimal-literal parse used by Python `float(str)`: optional surrounding
whitespace, optional sign, digits with optional fractional part and
optional exponent. -/
def parseFloatChars (cs : List Char) : Option Rat :=
  let cs := cs.dropWhile Char.isWhitespace
  let cs := (cs.reverse.dropWhile Char.isWhitespace).reverse
  let (sign, cs) :=
    match cs with
    | '-' :: rest => ((-1 : Rat), rest)
    | '+' :: rest => ((1 : Rat), rest)
    | rest => ((1 : Rat), rest)
  let intPart := cs.takeWhile Char.isDigit
  let rest := cs.dropWhile Char.isDigit
  let (fracPart, rest) :=
    match rest with
    | '.' :: r => (r.takeWhile Char.isDigit, r.dropWhile Char.isDigit)
    | r => (([] : List Char), r)
  let (expPart, rest) :=
    match rest with
    | 'e' :: r => (some r, ([] : List Char))
    | 'E' :: r => (some r, ([] : List Char))
    | r => (none, r)
  if intPart.isEmpty ∧ fracPart.isEmpty then none
  else if ¬ rest.isEmpty then none
  else
    let mantissa : Rat :=
      ((intPart.foldl (fun acc c => acc * 10 + (c.toNat - '0'.toNat)) 0 : Nat) : Rat)
        + (fracPart.foldl (fun acc c => acc * 10 + (c.toNat - '0'.toNat)) 0 : Nat)
          / (10 ^ fracPart.length : Nat)
    match expPart with
    | none => some (sign * mantissa)
    | some e =>
      let (esign, edigits) :=
        match e with
        | '-' :: r => ((-1 : Int), r)
        | '+' :: r => ((1 : Int), r)
        | r => ((1 : Int), r)
      if edigits.isEmpty ∨ ¬ edigits.all Char.isDigit then none
      else
        let ev : Int := esign * (edigits.foldl (fun acc c => acc * 10 + (c.toNat - '0'.toNat)) 0 : Nat)
        some (sign * mantissa * (10 : Rat) ^ ev)

/-- Python `float(v)`: `none` models the raise. -/
def pyFloat : JVal → Option Rat
  | .bool b => some (if b then 1 else 0)
  | .int n => some (n : Rat)
  | .float q => some q
  | .str s => parseFloatChars s.toList
  | _ => none

/-- Render a rational the way Python prints the floats the code builds
(integral values as `x.0`); non-integral values fall back to an
numerator/denominator rendering — no claim evaluates `str` on them. -/
def ratRepr (q : Rat) : String :=
  if q.den = 1 then toString q.num ++ ".0"
  else toString q.num ++ "/" ++ toString q.den

/-- Python `str(v)` for the values the code converts (scalars); container
reprs are approximated, no claim depends on them. -/
def pyStr : JVal → String
  | .null => "None"
  | .bool b => if b then "True" else "False"
  | .int n => toString n
  | .float q => ratRepr q
  | .str s => s
  | .arr _ => "[...]"
  | .obj _ => "\x7b...\x7d"

/-- Python `s.strip()` (whitespace). -/
def pyStrip (s : String) : String :=
  String.mk (((s.toList.dropWhile Char.isWhitespace).reverse.dropWhile
    Char.isWhitespace).reverse)

/-- Python `s.lower()`. -/
def pyLower (s : String) : String := String.mk (s.toList.map Char.toLower)

/-- Python `s.upper()`. -/
def pyUpper (s : String) : String := String.mk (s.toList.map Char.toUpper)

/-- Helper for `pySplitWs`: split a char list on whitespace runs. -/
def wsSplitAux : List Char → List Char → List String
  | [], acc => if acc.isEmpty then [] else [String.mk acc.reverse]
  | c :: rest, acc =>
    if c.isWhitespace then
      if acc.isEmpty then wsSplitAux rest []
      else String.mk acc.reverse :: wsSplitAux rest []
    else wsSplitAux rest (c :: acc)

/-- Python `s.split()`: split on whitespace runs, dropping empties. -/
def pySplitWs (s : String) : List String := wsSplitAux s.toList []

/-- Python `s.startswith(pre)`. -/
def pyStartsWith (s pre : String) : Bool := pre.toList.isPrefixOf s.toList

/-- Model of `needle in hay` on lists (contiguous-substring test). -/
def listContains (needle : List Char) : List Char → Bool
  | [] => needle.isEmpty
  | c :: rest => needle.isPrefixOf (c :: rest) || listContains needle rest

/-- Python substring test `needle in hay`. -/
def strContains (hay needle : String) : Bool :=
  listContains needle.toList hay.toList

/-- Python slice `xs[:m]` for an `int` bound `m` (negative bounds count
from the end). -/
def pySlice (xs : List α) (m : Int) : List α :=
  let k : Int := if m < 0 then (xs.length : Int) + m else m
  xs.take k.toNat

/-! ### A model of `json.loads`

A recursive-descent JSON parser over `List Char`, using a fuel argument
for termination (the fuel supplied at top level always suffices for any
input the fuel can be computed from). -/

/-- JSON whitespace. -/
def jWs (c : Char) : Bool := c = ' ' ∨ c = '\t' ∨ c = '\n' ∨ c = '\r'

def skipWs (cs : List Char) : List Char := cs.dropWhile jWs

def hexVal (c : Char) : Option Nat :=
  if '0' ≤ c ∧ c ≤ '9' then some (c.toNat - '0'.toNat)
  else if 'a' ≤ c ∧ c ≤ 'f' then some (c.toNat - 'a'.toNat + 10)
  else if 'A' ≤ c ∧ c ≤ 'F' then some (c.toNat - 'A'.toNat + 10)
  else none

/-- Parse the body of a JSON string (the opening quote already consumed). -/
def parseJStr : List Char → Option (String × List Char)
  | [] => none
  | '"' :: rest => some ("", rest)
  | '\\' :: 'u' :: a :: b :: c :: d :: rest => do
    let ha ← hexVal a
    let hb ← hexVal b
    let hc ← hexVal c
    let hd ← hexVal d
    let (s, r) ← parseJStr rest
    let n := ((ha * 16 + hb) * 16 + hc) * 16 + hd
    some (String.mk (Char.ofNat n :: s.toList), r)
  | '\\' :: e :: rest => do
    let c ← match e with
      | '"' => some '"'
      | '\\' => some '\\'
      | '/' => some '/'
      | 'b' => some (Char.ofNat 8)
      | 'f' => some (Char.ofNat 12)
      | 'n' => some '\n'
      | 'r' => some '\r'
      | 't' => some '\t'
      | _ => none
    let (s, r) ← parseJStr rest
    some (String.mk (c :: s.toList), r)
  | c :: rest => do
    let (s, r) ← parseJStr rest
    some (String.mk (c :: s.toList), r)

def jNumChar (c : Char) : Bool :=
  c.isDigit ∨ c = '-' ∨ c = '+' ∨ c = '.' ∨ c = 'e' ∨ c = 'E'

/-- Parse a JSON number; Python `json` yields `int` for pure-integer
literals and `float` otherwise. -/
def parseJNum (cs : List Char) : Option (JVal × List Char) :=
  let chunk := cs.takeWhile jNumChar
  let rest := cs.dropWhile jNumChar
  if chunk.isEmpty then none
  else if chunk.any (fun c => c = '.' ∨ c = 'e' ∨ c = 'E') then
    (parseFloatChars chunk).map (fun q => (JVal.float q, rest))
  else
    (parseIntChars chunk).map (fun n => (JVal.int n, rest))

mutual

def parseJ : Nat → List Char → Option (JVal × List Char)
  | 0, _ => none
  | fuel + 1, cs =>
    match skipWs cs with
    | 'n' :: 'u' :: 'l' :: 'l' :: rest => some (JVal.null, rest)
    | 't' :: 'r' :: 'u' :: 'e' :: rest => some (JVal.bool true, rest)
    | 'f' :: 'a' :: 'l' :: 's' :: 'e' :: rest => some (JVal.bool false, rest)
    | '"' :: rest => (parseJStr rest).map (fun (s, r) => (JVal.str s, r))
    | '[' :: rest =>
      (match skipWs rest with
       | ']' :: r => some (JVal.arr [], r)
       | r => (parseJArr fuel r).map (fun (xs, r) => (JVal.arr xs, r)))
    | '\x7b' :: rest =>
      (match skipWs rest with
       | '\x7d' :: r => some (JVal.obj [], r)
       | r => (parseJObj fuel r).map (fun (kvs, r) => (JVal.obj kvs, r)))
    | cs => parseJNum cs

/-- Elements of a non-empty JSON array (terminating `]` still pending). -/
def parseJArr : Nat → List Char → Option (List JVal × List Char)
  | 0, _ => none
  | fuel + 1, cs => do
    let (v, rest) ← parseJ fuel cs
    match skipWs rest with
    | ',' :: r => (parseJArr fuel r).map (fun (xs, r) => (v :: xs, r))
    | ']' :: r => some ([v], r)
    | _ => none

/-- Members of a non-empty JSON object (terminating brace still pending). -/
def parseJObj : Nat → List Char → Option (List (String × JVal) × List Char)
  | 0, _ => none
  | fuel + 1, cs => do
    match skipWs cs with
    | '"' :: rest => do
      let (k, rest) ← parseJStr rest
      match skipWs rest with
      | ':' :: rest => do
        let (v, rest) ← parseJ fuel rest
        match skipWs rest with
        | ',' :: r => (parseJObj fuel r).map (fun (kvs, r) => ((k, v) :: kvs, r))
        | '\x7d' :: r => some ([(k, v)], r)
        | _ => none
      | _ => none
    | _ => none

end

/-- Model of `json.loads(s)`: `none` models `json.JSONDecodeError`. -/
def jsonLoads (s : String) : Option JVal :=
  match parseJ (s.length + 8) s.toList with
  | some (v, rest) => if (skipWs rest).isEmpty then some v else none
  | none => none

/-- Nearest integer with ties to even (Python `round`). -/
def halfEvenInt (x : Rat) : Int :=
  let f : Int := x.floor
  let r := x - (f : Rat)
  if r < 1/2 then f
  else if r > 1/2 then f + 1
  else if f % 2 = 0 then f else f + 1

/-- Banker's rounding of `q` to two decimal places: Python `round(q, 2)`. -/
def round2 (q : Rat) : Rat := (halfEvenInt (q * 100) : Rat) / 100

/-- Fixed-point rendering `f"\x7bq:.2f\x7d"`. -/
def format2 (q : Rat) : String :=
  let k := halfEvenInt (q * 100)
  let a := k.natAbs
  let frac := a % 100
  (if k < 0 then "-" else "") ++ toString (a / 100) ++ "." ++
    (if frac < 10 then "0" ++ toString frac else toString frac)

/-! ### `src/supplier-pricing-mcp/tools/get_offers_for_items.py` -/

/-- A procurement item: the tool receives `items: List[Dict[str, Any]]`
(the MCP layer guarantees each element is a dict). -/
abbrev Item := List (String × JVal)

/-- Model of `str((item or \x7b\x7d).get("sku") or "").strip()`. -/
def itemSku (it : Item) : String :=
  pyStrip (pyStr (pyOr ((JVal.lookup it "sku").getD .null) (.str "")))

/-- Model of `int((item or \x7b\x7d).get("quantity", 0) or 0)` with failures → 0. -/
def itemQty (it : Item) : Int :=
  (pyInt (pyOr ((JVal.lookup it "quantity").getD (.int 0)) (.int 0))).getD 0

/-- Model of `float(max_price_raw) if max_price_raw is not None else None`,
failures → `None`. -/
def itemMaxPrice (it : Item) : Option Rat :=
  match (JVal.lookup it "max_unit_price").getD .null with
  | .null => none
  | v => pyFloat v

/-- One offer dict as built by the providers. -/
structure Offer where
  supplier : String
  sku : String
  unitPrice : Rat
  currency : String
  quantityAvailable : Option Int
  variantId : JVal
  description : JVal
deriving Repr

/-- Model of `\x7b"item": item, "offers": [...]\x7d`. -/
structure ItemBlock where
  item : Item
  offers : List Offer
deriving Repr

/-- The `structured` dict every provider mode returns. -/
structure Structured where
  currency : String
  items : List ItemBlock
  totalMinCost : Rat
  unavailableSkus : List String
  resolvedVariants : List (String × JVal)
  provider : String
  fallbackUsed : Bool
  reason : Option String
deriving Repr

/-- Python dict assignment `d[k] = v` (overwrite in place, else append). -/
def dictSet (kvs : List (String × JVal)) (k : String) (v : JVal) :
    List (String × JVal) :=
  if (JVal.lookup kvs k).isSome then
    kvs.map (fun kv => if kv.1 = k then (kv.1, v) else kv)
  else kvs ++ [(k, v)]

/-- Accumulator of the per-item loops of both providers. -/
structure OffState where
  blocks : List ItemBlock := []
  unavailable : List String := []
  resolved : List (String × JVal) := []
  total : Rat := 0
deriving Repr

/-- Outcome of one `_fetch_printful_product_and_variants` call (network +
JSON decoding, modelled as an oracle indexed by item position):
`httpError` is the `httpx.HTTPError` the loop catches, `exn` any other
exception (uncaught — it aborts the whole Printful call), `ok` the
returned `(product | None, variants)` pair. -/
inductive PrintfulFetch where
  | httpError
  | exn
  | ok (product : Option JVal) (variants : JVal)

/-- Model of `_build_demo_structured` (lines 124-153). -/
def demoStructured (defCur : String) (items : List Item) (reason : String) :
    Structured where
  currency := defCur
  items := items.map (fun it => ⟨it, []⟩)
  totalMinCost := 0
  unavailableSkus := items.filterMap fun it =>
    let s := itemSku it
    if s ≠ "" then some s else none
  resolvedVariants := []
  provider := "demo_fallback"
  fallbackUsed := true
  reason := some reason

/-- The per-item loop of `_get_offers_from_printful` (lines 274-348). -/
def printfulLoop (defCur : String) (maxSup : Int) (fetch : Nat → PrintfulFetch) :
    List Item → Nat → OffState → Except Unit OffState
  | [], _, st => .ok st
  | item :: rest, idx, st =>
    let sku := itemSku item
    let qty := itemQty item
    let maxPrice := itemMaxPrice item
    let skip (s : String) : Except Unit OffState :=
      printfulLoop defCur maxSup fetch rest (idx + 1)
        { st with unavailable := st.unavailable ++ [s],
                  blocks := st.blocks ++ [⟨item, []⟩] }
    if sku = "" ∨ qty ≤ 0 then
      skip (if sku = "" then "<empty>" else sku)
    else
      match fetch idx with
      | .httpError => skip sku
      | .exn => .error ()
      | .ok product variants =>
        let productTruthy := match product with
          | none => false
          | some p => p.truthy
        if !productTruthy || !variants.truthy then skip sku
        else
          match variants with
          | .arr (variant :: _) => do
            let variantId ← variant.getE "id"
            let variantName := pyOr (variant.get "name") (.str "")
            let st := { st with resolved := dictSet st.resolved sku variantId }
            let unitPrice :=
              match pyFloat (pyOr (variant.get "price") (.float 0)) with
              | some q => q
              | none => 99 / 100
            match maxPrice with
            | some mp =>
              if unitPrice > mp then
                /- the source records `resolved_variants[sku]` (line 317)
                before this price check (line 325), so the entry in the
                updated state is kept on this `continue` path -/
                printfulLoop defCur maxSup fetch rest (idx + 1)
                  { st with unavailable := st.unavailable ++ [sku],
                            blocks := st.blocks ++ [⟨item, []⟩] }
              else
                let offer : Offer :=
                  ⟨"printful", sku, unitPrice, defCur, none, variantId, variantName⟩
                printfulLoop defCur maxSup fetch rest (idx + 1)
                  { st with total := st.total + unitPrice * (qty : Rat),
                            blocks := st.blocks ++ [⟨item, pySlice [offer] maxSup⟩] }
            | none =>
              let offer : Offer :=
                ⟨"printful", sku, unitPrice, defCur, none, variantId, variantName⟩
              printfulLoop defCur maxSup fetch rest (idx + 1)
                { st with total := st.total + unitPrice * (qty : Rat),
                          blocks := st.blocks ++ [⟨item, pySlice [offer] maxSup⟩] }
          | _ => .error ()

/-- Model of `_get_offers_from_printful` (lines 260-360). -/
def printfulModel (hasKey : Bool) (defCur : String) (items : List Item)
    (maxSup : Int) (fetch : Nat → PrintfulFetch) : Except Unit Structured :=
  if ¬ hasKey then .error ()
  else do
    let st ← printfulLoop defCur maxSup fetch items 0 {}
    .ok { currency := defCur
          items := st.blocks
          totalMinCost := round2 st.total
          unavailableSkus := st.unavailable
          resolvedVariants := st.resolved
          provider := "printful"
          fallbackUsed := false
          reason := none }

/-- The scoring loop of `_pick_best_fakestore_product` (lines 381-401);
raises when a product is not a dict. -/
def pickBestLoop (query : String) : List JVal → Option JVal → Rat →
    Except Unit (Option JVal)
  | [], best, _ => .ok best
  | p :: rest, best, bestScore => do
    let tRaw ← p.getE "title"
    let title := pyLower (pyStr (pyOr tRaw (.str "")))
    let cRaw ← p.getE "category"
    let category := pyLower (pyStr (pyOr cRaw (.str "")))
    let base : Rat :=
      (if strContains title query then 3 else 0) +
      (if strContains category query then 2 else 0)
    let score := (pySplitWs query).foldl
      (fun acc w =>
        acc + (if w ≠ "" ∧ strContains title w then 1 else 0)
            + (if w ≠ "" ∧ strContains category w then 1/2 else 0))
      base
    if score > bestScore then pickBestLoop query rest (some p) score
    else pickBestLoop query rest best bestScore

/-- Model of `_pick_best_fakestore_product` (lines 368-408). -/
def pickBestFakestore (products : List JVal) (skuQuery : String) :
    Except Unit (Option JVal) :=
  match products with
  | [] => .ok none
  | p0 :: _ =>
    let query := pyLower (pyStrip skuQuery)
    if query = "" then .ok (some p0)
    else do
      let best ← pickBestLoop query products none 0
      match best with
      | none => .ok (some p0)
      | some b => .ok (some b)

/-- The per-item loop of `_get_offers_from_fakestore` (lines 432-489). -/
def fakestoreLoop (defCur : String) (maxSup : Int) (products : List JVal) :
    List Item → OffState → Except Unit OffState
  | [], st => .ok st
  | item :: rest, st =>
    let sku := itemSku item
    let qty := itemQty item
    let maxPrice := itemMaxPrice item
    let skip (s : String) : Except Unit OffState :=
      fakestoreLoop defCur maxSup products rest
        { st with unavailable := st.unavailable ++ [s],
                  blocks := st.blocks ++ [⟨item, []⟩] }
    if sku = "" ∨ qty ≤ 0 then
      skip (if sku = "" then "<empty>" else sku)
    else do
      let product ← pickBestFakestore products sku
      match product with
      | none => skip sku
      | some p =>
        if ¬ p.truthy then skip sku
        else do
          let productId ← p.getE "id"
          let title := pyOr (p.get "title") (.str "")
          let unitPrice := (pyFloat (pyOr (p.getD "price" (.float 0)) (.float 0))).getD 0
          match maxPrice with
          | some mp =>
            if unitPrice > mp then skip sku
            else do
              let vid ← match productId with
                | .null => .ok (-1 : Int)
                | v => match pyInt v with
                  | some n => .ok n
                  | none => .error ()
              let offer : Offer :=
                ⟨"fakestoreapi", sku, unitPrice, defCur, none, productId, title⟩
              fakestoreLoop defCur maxSup products rest
                { st with total := st.total + unitPrice * (qty : Rat),
                          resolved := dictSet st.resolved sku (.int vid),
                          blocks := st.blocks ++ [⟨item, pySlice [offer] maxSup⟩] }
          | none => do
            let vid ← match productId with
              | .null => .ok (-1 : Int)
              | v => match pyInt v with
                | some n => .ok n
                | none => .error ()
            let offer : Offer :=
              ⟨"fakestoreapi", sku, unitPrice, defCur, none, productId, title⟩
            fakestoreLoop defCur maxSup products rest
              { st with total := st.total + unitPrice * (qty : Rat),
                        resolved := dictSet st.resolved sku (.int vid),
                        blocks := st.blocks ++ [⟨item, pySlice [offer] maxSup⟩] }

/-- Model of `_get_offers_from_fakestore` (lines 411-502); `fetchJson` is the
outcome of the `https://fakestoreapi.com/products` request (exception, or
the decoded JSON body). -/
def fakestoreModel (defCur : String) (items : List Item) (maxSup : Int)
    (fetchJson : Except Unit JVal) (reasonFromPrintful : Option String) :
    Except Unit Structured := do
  let j ← fetchJson
  match j with
  | .arr products => do
    let st ← fakestoreLoop defCur maxSup products items {}
    let dfltReason := "Printful отключен или недоступен, используется fakestoreapi.com."
    let reason := match reasonFromPrintful with
      | some s => if s ≠ "" then s else dfltReason
      | none => dfltReason
    .ok { currency := defCur
          items := st.blocks
          totalMinCost := round2 st.total
          unavailableSkus := st.unavailable
          resolvedVariants := st.resolved
          provider := "fakestoreapi"
          fallbackUsed := true
          reason := some reason }
  | _ => .error ()

/-- Model of `_format_summary_text` (lines 156-233). -/
def formatSummaryText (st : Structured) (reasonPrefix : Option String) : String :=
  let provider := if st.provider ≠ "" then st.provider else "unknown"
  let title :=
    if provider = "printful" ∧ ¬ st.fallbackUsed then
      "Результаты подбора офферов (Printful)"
    else if provider = "fakestoreapi" then
      "Результаты подбора офферов (FakeStore API)"
    else "Результаты подбора офферов (демо-поставщик)"
  let stReason := match st.reason with
    | some s => if s ≠ "" then some s else none
    | none => none
  let reasonLines :=
    (match reasonPrefix with | some rp => [rp] | none => []) ++
    (match stReason with | some r => ["Причина: " ++ r] | none => []) ++
    (if reasonPrefix.isSome ∨ stReason.isSome then [""] else [])
  let curTop := if st.currency ≠ "" then st.currency else "USD"
  let blockLines := st.items.flatMap fun b =>
    let sku := pyStr ((JVal.lookup b.item "sku").getD .null)
    let qty := itemQty b.item
    ("- " ++ sku ++ " — запрошено " ++ toString qty ++ " шт., офферов: " ++
      toString b.offers.length) ::
    b.offers.map fun o =>
      let supplier := if o.supplier ≠ "" then o.supplier else provider
      let curr := if o.currency ≠ "" then o.currency else curTop
      "  • " ++ supplier ++ ": " ++ format2 o.unitPrice ++ " " ++ curr ++
        " за штуку, ~" ++ format2 (o.unitPrice * (qty : Rat)) ++ " " ++ curr ++
        " за позицию (variant_id=" ++ pyStr o.variantId ++ ", desc=" ++
        pyStr o.description ++ ")"
  let totalLines :=
    ["", "Минимальная суммарная стоимость по всем позициям: " ++
      format2 st.totalMinCost ++ " " ++ curTop]
  let unavailLines :=
    if st.unavailableSkus.isEmpty then []
    else "" :: "Позиции без офферов:" :: st.unavailableSkus.map ("- " ++ ·)
  let resolvedLines :=
    if st.resolvedVariants.isEmpty then []
    else "" :: "Соответствие sku → variant_id:" ::
      st.resolvedVariants.map (fun kv => "- " ++ kv.1 ++ " -> " ++ pyStr kv.2)
  String.intercalate "\n"
    ([title, ""] ++ reasonLines ++ blockLines ++ totalLines ++ unavailLines ++
      resolvedLines)

/-- The tool-result envelope `_wrap_tool_result` builds (lines 236-252). -/
structure Envelope where
  meta : JVal := .null
  contentText : String
  structuredContent : Structured
  isError : Bool
deriving Repr

def wrapToolResult (st : Structured) (text : String) : Envelope :=
  { meta := .null, contentText := text, structuredContent := st, isError := false }

/-- Tiers 2 and 3 of `get_offers_for_items` (lines 543-568), reached with
the reason recorded for Printful. -/
def getOffersFallback (fsFetch : Except Unit JVal) (items : List Item)
    (maxSup : Int) (defCur : String) (pReason : String) : Envelope :=
  match fakestoreModel defCur items maxSup fsFetch (some pReason) with
  | .ok st => wrapToolResult st (formatSummaryText st none)
  | .error () =>
    let reason := pReason ++ " ; fakestoreapi.com недоступен или вернул ошибку."
    let st := demoStructured defCur items reason
    wrapToolResult st (formatSummaryText st
      (some "Работаем в финальном демо-режиме: реальный поставщик недоступен."))

/-- Python truthiness of the `PRINTFUL_API_KEY` environment value. -/
def keyTruthy : Option String → Bool
  | some s => s != ""
  | none => false

/-- Model of `USE_PRINTFUL and PRINTFUL_API_KEY` — the tier-1 guard. -/
def printfulConfigured (usePrintful : Bool) (apiKey : Option String) : Bool :=
  usePrintful && keyTruthy apiKey

/-- Model of `get_offers_for_items` (lines 510-568): the three-tier cascade.
`usePrintful`/`apiKey` model the `USE_PRINTFUL`/`PRINTFUL_API_KEY`
environment, `pFetch`/`fsFetch` the two providers' network traffic. -/
def getOffersForItems (usePrintful : Bool) (apiKey : Option String)
    (pFetch : Nat → PrintfulFetch) (fsFetch : Except Unit JVal)
    (items : List Item) (maxSup : Int) (defCur : String) : Envelope :=
  let keySet : Bool := keyTruthy apiKey
  if usePrintful && keySet then
    match printfulModel keySet defCur items maxSup pFetch with
    | .ok st => wrapToolResult st (formatSummaryText st none)
    | .error () =>
      getOffersFallback fsFetch items maxSup defCur
        "Printful API недоступно или вернуло ошибку: Exception(...)"
  else
    getOffersFallback fsFetch items maxSup defCur
      (if ¬ usePrintful then "USE_PRINTFUL=false (Printful отключен через конфигурацию)."
       else "PRINTFUL_API_KEY не задан, обращение к Printful невозможно.")

/-! ### `src/agent/main.py`: tool-result envelope handling -/

/-- One MCP content block; the library's `TextContent` carries a `text`
attribute (`getattr(c, "text", None)` yields `none` when absent). -/
structure ContentBlock where
  text : Option String
deriving Repr

/-- The polymorphic result object of `session.call_tool`, as probed with
`getattr` by `_extract_structured_from_mcp_result`. -/
structure MCPToolResult where
  structuredContent : Option JVal := none
  structured_content : Option JVal := none
  content : Option (List ContentBlock) := none
deriving Repr

/-- Model of `inner = sc.get("structuredContent") or sc.get("structured_content");
return inner if isinstance(inner, dict) else sc` — the one-level unwrap
used on every dict shape in `_extract_structured_from_mcp_result`. -/
def unwrapOne (kvs : List (String × JVal)) : JVal :=
  let inner := pyOr ((JVal.lookup kvs "structuredContent").getD .null)
      ((JVal.lookup kvs "structured_content").getD .null)
  match inner with
  | .obj ikvs => .obj ikvs
  | _ => .obj kvs

/-- The `for c in contents` loop: first block whose truthy `text` parses as
a JSON dict, unwrapped one level; blocks with falsy text, unparsable text
or non-dict JSON are skipped. -/
def extractFromContents : List ContentBlock → Option JVal
  | [] => none
  | c :: rest =>
    match c.text with
    | none => extractFromContents rest
    | some t =>
      if t = "" then extractFromContents rest
      else
        match jsonLoads t with
        | some (.obj kvs) => some (unwrapOne kvs)
        | _ => extractFromContents rest

/-- Model of `_extract_structured_from_mcp_result` (src/agent/main.py:279-323). -/
def extractStructured (r : MCPToolResult) : JVal :=
  match r.structuredContent with
  | some (.obj kvs) => unwrapOne kvs
  | _ =>
    match r.structured_content with
    | some (.obj kvs) => unwrapOne kvs
    | _ =>
      let contents := r.content.getD []
      match extractFromContents contents with
      | some v => v
      | none =>
        match contents with
        | [] => .obj []
        | c :: _ =>
          match c.text with
          | some t => if t = "" then .obj [] else .str t
          | none => .obj []

/-- Model of `_call_mcp_tool_json` (src/agent/main.py:326-349): the whole MCP
session is wrapped in `try/except`; on any exception an error string is
returned instead, so the function never raises. -/
def callMcpToolJson (toolName : String) (outcome : Except String MCPToolResult) : JVal :=
  match outcome with
  | .error exc => .str ("Error calling tool \x27" ++ toolName ++ "\x27: " ++ exc)
  | .ok r => extractStructured r

/-- The `Totals` dataclass. -/
structure Totals where
  currency : String
  totalNet : Rat
  totalItems : Int
deriving Repr, DecidableEq

/-- The `structuredContent`/`structured_content` unwrap at the top of
`_aggregate_totals_from_supplier_response`. -/
def aggUnwrap (kvs : List (String × JVal)) : JVal :=
  match JVal.lookup kvs "structuredContent" with
  | some (.obj inner) => .obj inner
  | _ =>
    match JVal.lookup kvs "structured_content" with
    | some (.obj inner) => .obj inner
    | _ => .obj kvs

/-- Per-block quantity of the aggregation loop:
`item = item_block.get("item") or \x7b\x7d; int(item.get("quantity", 0))`
with `int` failures mapped to 0; a non-dict block or truthy non-dict item
raises `AttributeError` (modelled as `.error`). -/
def blockQty (b : JVal) : Except Unit Int :=
  match b with
  | .obj bkvs =>
    match pyOr ((JVal.lookup bkvs "item").getD .null) (.obj []) with
    | .obj ikvs => .ok ((pyInt ((JVal.lookup ikvs "quantity").getD (.int 0))).getD 0)
    | _ => .error ()
  | _ => .error ()

/-- Model of `_aggregate_totals_from_supplier_response` (src/agent/main.py:380-429).
`.error ()` models the uncaught `AttributeError`/`TypeError` raised when
the `items` field is a truthy non-list or contains malformed blocks. -/
def aggregateTotals (resp : JVal) : Except Unit Totals :=
  match resp with
  | .str _ => .ok ⟨"USD", 0, 0⟩
  | .obj kvs =>
    let r := aggUnwrap kvs
    let currency := pyStr (pyOr (r.get "currency") (.str "USD"))
    let totalNet := (pyFloat (r.getD "total_min_cost" (.float 0))).getD 0
    match pyOr (r.getD "items" (.arr [])) (.arr []) with
    | .arr blocks => do
      let qs ← blocks.mapM blockQty
      .ok ⟨currency, totalNet, qs.sum⟩
    | _ => .error ()
  | _ => .ok ⟨"USD", 0, 0⟩

/-! Spec-side restatement of the (amended) C5 claim, written from its
words rather than from the code, for the refinement theorem. -/

/-- The item blocks of a supplier response, as the claim describes them. -/
def specBlocks (resp : JVal) : List JVal :=
  match resp with
  | .obj kvs =>
    match pyOr ((aggUnwrap kvs).getD "items" (.arr [])) (.arr []) with
    | .arr blocks => blocks
    | _ => []
  | _ => []

/-- The claim phrase "each block's item quantity parsed as int (0 when unparsable)". -/
def specBlockQty (b : JVal) : Int :=
  (pyInt ((pyOr (b.get "item") (.obj [])).getD "quantity" (.int 0))).getD 0

/-- The totals the amended claim predicts for a dict input. -/
def aggregateSpecTotals (resp : JVal) : Totals :=
  match resp with
  | .obj kvs =>
    let r := aggUnwrap kvs
    { currency := if (r.get "currency").truthy then pyStr (r.get "currency") else "USD"
      totalNet := (pyFloat (r.getD "total_min_cost" (.float 0))).getD 0
      totalItems := ((specBlocks resp).map specBlockQty).sum }
  | _ => ⟨"USD", 0, 0⟩

/-- One block is well formed when it is a dict whose `item` field is a
dict or falsy (so the aggregation loop cannot raise on it). -/
def blockWFb (b : JVal) : Bool :=
  match b with
  | .obj bkvs =>
    match pyOr ((JVal.lookup bkvs "item").getD .null) (.obj []) with
    | .obj _ => true
    | _ => false
  | _ => false

/-- Well-formedness of the supplier response under which the aggregation
loop cannot raise: the (unwrapped) `items` field is falsy or a list whose
blocks are well formed.  Non-dict inputs are vacuously well-formed. -/
def aggWF (resp : JVal) : Bool :=
  match resp with
  | .obj kvs =>
    match pyOr ((aggUnwrap kvs).getD "items" (.arr [])) (.arr []) with
    | .arr blocks => blocks.all blockWFb
    | _ => false
  | _ => true

/-- Dict test. -/
def JVal.isObj : JVal → Bool
  | .obj _ => true
  | _ => false

/-! ### `src/supplier-pricing-mcp/tools/search_products.py` -/

/-- A `ProductSummary` (tools/models.py); pydantic validates `price > 0`
and, when an image is present, that it is an URL string. -/
structure PSummary where
  productId : String
  title : String
  price : Rat
  currency : String
  imageUrl : Option String
deriving Repr, DecidableEq

/-- The pydantic validation performed when `ProductSummary` is built:
`price` must be `> 0`, `image_url` must be `None` or an `HttpUrl`
(approximated as an http/https string). A failure raises
`ValidationError` (uncaught by the tool). -/
def validateSummary (s : PSummary) (imgRaw : Option JVal) : Except Unit PSummary := do
  if s.price ≤ 0 then .error ()
  else
    match imgRaw with
    | none => .ok s
    | some (.str u) =>
      if pyStartsWith u "http://" ∨ pyStartsWith u "https://" then .ok s else .error ()
    | some _ => .error ()

/-- One iteration of the matching loop of `search_products` (lines
154-165): `some` summary when the product's stripped title contains
`needle` case-insensitively, `none` when it does not match; raises on a
non-dict product, an unparsable price, or failed validation. -/
def matchOne (needle currency : String) (p : JVal) : Except Unit (Option PSummary) := do
  let tRaw ← p.getDE "title" (.str "")
  let title := pyStrip (pyStr tRaw)
  if strContains (pyLower title) needle then do
    let idRaw ← p.getE "id"
    let priceRaw ← p.getDE "price" (.float 0)
    let price ← match pyFloat priceRaw with
      | some q => Except.ok q
      | none => Except.error ()
    let imgRaw0 ← p.getE "image"
    let imgRaw := if imgRaw0.truthy then some imgRaw0 else none
    let s : PSummary :=
      { productId := pyStr idRaw
        title := if title ≠ "" then title else "Product " ++ pyStr idRaw
        price := price
        currency := currency
        imageUrl := match imgRaw with
          | some (.str u) => some u
          | _ => none }
    let s ← validateSummary s imgRaw
    .ok (some s)
  else .ok none

/-- The matching loop over the whole catalog. -/
def collectMatches (needle currency : String) : List JVal → Except Unit (List PSummary)
  | [] => .ok []
  | p :: rest => do
    match ← matchOne needle currency p with
    | some s => (collectMatches needle currency rest).map (s :: ·)
    | none => collectMatches needle currency rest

/-- Model of `matches.sort(key=lambda p: p.price)` — comparison by price. -/
def priceLE (a b : PSummary) : Prop := a.price ≤ b.price

instance : DecidableRel priceLE := fun a b =>
  inferInstanceAs (Decidable (a.price ≤ b.price))

instance : IsTotal PSummary priceLE := ⟨fun a b => le_total a.price b.price⟩

instance : IsTrans PSummary priceLE := ⟨fun _ _ _ h₁ h₂ => le_trans h₁ h₂⟩

/-- The structured content `search_products` returns. -/
structure SearchResult where
  query : String
  limit : Int
  currency : String
  items : List PSummary
deriving Repr, DecidableEq

/-- Model of `search_products` (lines 30-204). `fetch` is the outcome of the
catalog HTTP request (both `except` branches re-raise `McpError`, modelled
as `.error`); an empty stripped query raises `McpError` as well. -/
def searchProducts (query : String) (limit : Int) (fetch : Except Unit JVal)
    (currency : String) : Except Unit SearchResult :=
  let cleaned := pyStrip query
  if cleaned = "" then .error ()
  else do
    let productsJ ← fetch
    let needle := pyLower cleaned
    let matched ← match productsJ with
      | .arr products => collectMatches needle currency products
      | _ => .ok []
    let sorted := List.insertionSort priceLE matched
    .ok { query := query, limit := limit, currency := currency,
          items := pySlice sorted limit }

/-! ### `src/fx-rates-mcp/tools/convert_amount.py` -/

/-- Model of `_FX_FALLBACK_RATES`. -/
def fxFallbackRates : List ((String × String) × Rat) :=
  [(("USD", "EUR"), 9/10), (("EUR", "USD"), 111/100),
   (("USD", "RUB"), 90), (("RUB", "USD"), 1/90),
   (("EUR", "RUB"), 98), (("RUB", "EUR"), 1/98)]

/-- Model of `_fallback_rate` (lines 138-163). -/
def fallbackRate (base quote : String) : Rat × String :=
  let b := pyUpper base
  let q := pyUpper quote
  if b = q then (1, "identity")
  else
    match (fxFallbackRates.find? (fun e => e.1 = (b, q))).map (·.2) with
    | some r => (r, "fallback_static")
    | none => (1, "fallback_identity")

/-- Model of `_fetch_rate_http` (lines 58-135): `httpData` is the outcome of the
HTTP request (exception, or decoded JSON body); the rate extraction from
the body is translated from the source. -/
def fetchRateHttp (httpData : Except Unit JVal) : Except Unit (Option Rat × JVal) := do
  let data ← httpData
  let rate₁ : Option Rat :=
    match data with
    | .obj kvs =>
      match (JVal.lookup kvs "info").getD .null with
      | .obj ikvs =>
        match JVal.lookup ikvs "rate" with
        | some rv => pyFloat rv
        | none => none
      | _ => none
    | _ => none
  let rate₂ : Option Rat :=
    match rate₁ with
    | some r => some r
    | none =>
      match data with
      | .obj kvs =>
        match JVal.lookup kvs "result" with
        | some rv => pyFloat rv
        | none => none
      | _ => none
  .ok (rate₂, match data with
    | .obj kvs => .obj kvs
    | _ => .obj [])

/-- The dict `convert_amount` returns. -/
structure FxResult where
  base : String
  quote : String
  amountBase : Rat
  amountQuote : Rat
  rate : Rat
  provider : String
  fallbackUsed : Bool
  warning : Option String
  raw : JVal
deriving Repr

/-- Model of `convert_amount` (lines 166-270), paired with the number of FX HTTP
requests it makes (0 in the identity shortcut, 1 otherwise). -/
def convertAmount (amount : Rat) (base quote : String)
    (httpData : Except Unit JVal) (fxApiBase : String) : FxResult × Nat :=
  let base := pyUpper base
  let quote := pyUpper quote
  if base = quote then
    ({ base := base, quote := quote, amountBase := amount, amountQuote := amount,
       rate := 1, provider := "identity", fallbackUsed := false,
       warning := none, raw := .obj [] }, 0)
  else
    let (rate?, raw, warning₁) :=
      match fetchRateHttp httpData with
      | .ok (r, raw) => (r, raw, (none : Option String))
      | .error () =>
        (none, .obj [],
         some ("FX API " ++ fxApiBase ++
           " недоступно или вернуло ошибку, использован fallback-курс."))
    let (rate, provider, fallbackUsed, warning) :=
      match rate? with
      | some r => (r, fxApiBase, false, warning₁)
      | none =>
        let (r, prov) := fallbackRate base quote
        (r, prov, true,
         match warning₁ with
         | some w => some w
         | none => some ("FX API не вернул корректный курс, использован fallback-курс (" ++
             prov ++ ")."))
    ({ base := base, quote := quote, amountBase := amount,
       amountQuote := amount * rate, rate := rate, provider := provider,
       fallbackUsed := fallbackUsed, warning := warning, raw := raw }, 1)

/-! ### `src/notification-mcp/tools/send_procurement_plan_webhook.py` -/

/-- An `httpx` response: status code, and the decoded JSON body (`none`
models `json.JSONDecodeError` from `response.json()`). -/
structure HttpResponse where
  statusCode : Int
  jsonBody : Option JVal
deriving Repr

/-- The `WebhookResult` model. -/
structure WebhookResult where
  url : String
  statusCode : Int
  ok : Bool
  responseBody : JVal
deriving Repr

/-- The `ToolResult` the webhook tool returns. -/
structure NotifToolResult where
  contentText : String
  structured : WebhookResult
deriving Repr

/-- Model of `send_procurement_plan_webhook` (lines 32-161): `post` is the outcome
of the POST request; on exception the tool raises `McpError`
(`.error ()`) rather than returning a default. -/
def sendPlanWebhookTool (url : String) (plan : JVal)
    (post : Except Unit HttpResponse) : Except Unit NotifToolResult :=
  match post with
  | .error () => .error ()
  | .ok resp =>
    let isOk : Bool := 200 ≤ resp.statusCode && resp.statusCode < 300
    let body := resp.jsonBody.getD (.obj [])
    let human :=
      if isOk then
        "План закупок успешно отправлен на " ++ url ++ ". HTTP статус: " ++
          toString resp.statusCode ++ "."
      else
        "План закупок был отправлен на " ++ url ++ ", но вебхук вернул статус " ++
          toString resp.statusCode ++ "."
    .ok ⟨human, ⟨url, resp.statusCode, isOk, body⟩⟩

/-! ### `src/agent/main.py`: pipeline mode -/

/-- A `ProcurementItem` of the parsed request. -/
structure PItem where
  sku : String
  quantity : Int
  maxUnitPrice : Option Rat
deriving Repr

/-- A `ParsedRequest`. -/
structure ParsedRequest where
  targetCurrency : String
  budget : Option Rat
  webhookUrl : Option String
  items : List PItem
deriving Repr

/-- The JSON plan assembled by `build_procurement_plan`. -/
structure PipelinePlan where
  request : ParsedRequest
  supplierOffers : JVal
  totalsSupplier : Totals
  totalsTarget : Totals
  fx : Option JVal
  webhookResult : Option JVal
deriving Repr

/-- The condition guarding the FX call in `build_procurement_plan`
(line 763): supplier currency differs case-insensitively from the target
and the supplier total is strictly positive. -/
def pipelineFxCond (totals : Totals) (target : String) : Bool :=
  pyUpper totals.currency != pyUpper target && totals.totalNet > 0

/-- Model of `build_procurement_plan` (lines 727-804), given the parsed request and
the payloads the three MCP calls would return (`_call_mcp_tool_json` never
raises, so each is a plain `JVal`).  Returns the plan together with the
ordered list of MCP tools actually called; `.error` models the uncaught
raise of `_aggregate_totals_from_supplier_response` on a malformed
supplier payload. -/
def buildProcurementPlan (parsed : ParsedRequest) (supplierResp fxResp webhookResp : JVal) :
    Except Unit (PipelinePlan × List String) := do
  let totalsSupplier ← aggregateTotals supplierResp
  let fxCond : Bool := pipelineFxCond totalsSupplier parsed.targetCurrency
  let baseTarget : Totals :=
    ⟨parsed.targetCurrency, totalsSupplier.totalNet, totalsSupplier.totalItems⟩
  let (fx, totalsTarget, fxTrace) :=
    if fxCond then
      let tt :=
        match fxResp with
        | .obj kvs =>
          let conv :=
            match pyFloat (pyOr ((JVal.lookup kvs "amount_quote").getD .null) (.float 0)) with
            | some q => q
            | none => totalsSupplier.totalNet
          Totals.mk parsed.targetCurrency conv totalsSupplier.totalItems
        | _ => baseTarget
      (some fxResp, tt, ["convert_amount"])
    else (none, baseTarget, [])
  let (webhookResult, whTrace) :=
    match parsed.webhookUrl with
    | some _ => (some webhookResp, ["send_procurement_plan_webhook"])
    | none => (none, [])
  .ok ({ request := parsed, supplierOffers := supplierResp,
         totalsSupplier := totalsSupplier, totalsTarget := totalsTarget,
         fx := fx, webhookResult := webhookResult },
       ["get_offers_for_items"] ++ fxTrace ++ whTrace)

/-! ### `src/agent/main.py`: tools-agent mode -/

/-- One tool call in a chat-completion response. -/
structure ToolCallRec where
  id : String
  name : String
  arguments : Option String
deriving Repr

/-- One chat-completion response: `toolCalls = []` models a falsy
`msg.tool_calls` (the final-answer case). -/
structure ModelMsg where
  toolCalls : List ToolCallRec
  content : Option String
deriving Repr

/-- A `ToolInvocation` of the tool trace. -/
structure ToolInvocation where
  name : String
  args : JVal
  result : JVal
deriving Repr

/-- The tool-dispatch body of `_run_tools_agent_dialog` (lines 662-694):
parses the call's arguments and routes to the MCP helpers; `mcpResult` is
the payload the routed `_call_mcp_tool_json` call would return (those
helpers never raise).  `.error` models the uncaught raise on arguments
that parse to a non-dict (`args.get` → `AttributeError`) or a
non-numeric `amount` (`float` → `TypeError`/`ValueError`). -/
def callArgs (tc : ToolCallRec) : JVal :=
  (jsonLoads (match tc.arguments with
    | some s => if s ≠ "" then s else "\x7b\x7d"
    | none => "\x7b\x7d")).getD (.obj [])

def dispatchToolCall (tc : ToolCallRec) (mcpResult : JVal) :
    Except Unit ToolInvocation :=
  let args := callArgs tc
  if tc.name = "supplier_get_offers" then do
    let _items ← args.getE "items"
    let _maxSup ← args.getDE "max_suppliers_per_item" (.int 3)
    .ok ⟨tc.name, args, mcpResult⟩
  else if tc.name = "fx_convert_amount" then do
    let amountRaw ← args.getDE "amount" (.float 0)
    let _amount ← match pyFloat amountRaw with
      | some q => Except.ok q
      | none => Except.error ()
    let _base ← args.getDE "base" (.str "USD")
    let _quote ← args.getDE "quote" (.str "USD")
    .ok ⟨tc.name, args, mcpResult⟩
  else if tc.name = "notify_send_plan" then do
    let url ← args.getE "url"
    let _plan ← args.getDE "plan" (.obj [])
    if url.truthy then .ok ⟨tc.name, args, mcpResult⟩
    else .ok ⟨tc.name, args, .obj [("error", .str "notify_send_plan called without url")]⟩
  else
    .ok ⟨tc.name, args, .obj [("error", .str ("Unknown tool " ++ tc.name))]⟩

/-- Execute the tool calls of one response in order (`results i` is the
MCP payload for the `i`-th call of the round). -/
def execCalls (results : Nat → JVal) : List ToolCallRec → Nat →
    Except Unit (List ToolInvocation)
  | [], _ => .ok []
  | tc :: rest, i => do
    let inv ← dispatchToolCall tc (results i)
    let invs ← execCalls results rest (i + 1)
    .ok (inv :: invs)

/-- Outcome of `_run_tools_agent_dialog`: either the loop raised
(`crashed`), or it returned the tool trace and final assistant message;
`rounds` counts chat-completion requests made. -/
inductive AgentRun where
  | crashed (rounds : Nat)
  | done (trace : List ToolInvocation) (finalMsg : String) (rounds : Nat)
deriving Repr

/-- The `for step in range(max_steps)` loop of `_run_tools_agent_dialog`
(lines 629-709): `responses step` is the chat-completion response of round
`step`, `results step i` the MCP payload for its `i`-th tool call. -/
def agentLoopFrom (responses : Nat → ModelMsg) (results : Nat → Nat → JVal) :
    Nat → Nat → List ToolInvocation → AgentRun
  | 0, step, trace => .done trace "" step
  | fuel + 1, step, trace =>
    let msg := responses step
    if msg.toolCalls.isEmpty then .done trace (msg.content.getD "") (step + 1)
    else
      match execCalls (results step) msg.toolCalls 0 with
      | .ok invs => agentLoopFrom responses results fuel (step + 1) (trace ++ invs)
      | .error () => .crashed (step + 1)

/-- Model of `_run_tools_agent_dialog` (lines 587-711), `max_steps` defaults to 8. -/
def runToolsAgentDialog (responses : Nat → ModelMsg) (results : Nat → Nat → JVal)
    (maxSteps : Nat := 8) : AgentRun :=
  agentLoopFrom responses results maxSteps 0 []

/-- Number of chat-completion requests a run made. -/
def roundsOf : AgentRun → Nat
  | .crashed r => r
  | .done _ _ r => r

/-- A tool call whose dispatch cannot raise: its arguments parse to a
dict (else `args.get` raises `AttributeError`), with a float-convertible
`amount` for the FX tool (else `float` raises). -/
def wellFormedCall (tc : ToolCallRec) : Bool :=
  let args := callArgs tc
  if tc.name = "supplier_get_offers" then args.isObj
  else if tc.name = "fx_convert_amount" then
    (match args with
     | .obj _ => (pyFloat (args.getD "amount" (.float 0))).isSome
     | _ => false)
  else if tc.name = "notify_send_plan" then args.isObj
  else true

/-! Spec-side restatement of the (amended) C6 claim: the envelope
unwrapper as a priority choice among the wire shapes, written from the
claim's words. -/

/-- The claim phrase "the first truthy of the nested `structuredContent` /
`structured_content` entries". -/
def firstTruthyNested (kvs : List (String × JVal)) : JVal :=
  if ((JVal.lookup kvs "structuredContent").getD .null).truthy then
    (JVal.lookup kvs "structuredContent").getD .null
  else (JVal.lookup kvs "structured_content").getD .null

/-- That nested value when it is a dict, else the dict itself. -/
def unwrapSpec (kvs : List (String × JVal)) : JVal :=
  match firstTruthyNested kvs with
  | .obj ikvs => .obj ikvs
  | _ => .obj kvs

/-- An attribute shape applies only when the attribute holds a dict. -/
def attrDictUnwrap (a : Option JVal) : Option JVal :=
  match a with
  | some (.obj kvs) => some (unwrapSpec kvs)
  | _ => none

/-- The first content block whose truthy text parses as a JSON dict,
unwrapped one level. -/
def jsonDictBlocks (blocks : List ContentBlock) : Option JVal :=
  (blocks.findSome? fun c => c.text.bind fun t =>
      if t = "" then none
      else
        match jsonLoads t with
        | some (.obj kvs) => some kvs
        | _ => none).map unwrapSpec

/-- The truthy raw text of the first content block. -/
def rawTextBlock (blocks : List ContentBlock) : Option JVal :=
  blocks.head?.bind fun c => c.text.bind fun t =>
    if t = "" then none else some (.str t)

/-- The amended C6 claim as a definition: try the shapes in fixed
priority, empty dict when all fail. -/
def extractSpec (r : MCPToolResult) : JVal :=
  ((attrDictUnwrap r.structuredContent).orElse fun _ =>
    (attrDictUnwrap r.structured_content).orElse fun _ =>
      (jsonDictBlocks (r.content.getD [])).orElse fun _ =>
        rawTextBlock (r.content.getD [])).getD (.obj [])

/-! ## Claims -/

/-- C8: for every amount, base and quote (and whatever the FX HTTP call
does), the dict returned by `convert_amount` satisfies
`amount_quote = amount_base * rate`; and when `base` and `quote` agree
after uppercasing, the result has `rate` 1.0, `amount_quote` equal to the
input amount, `provider` "identity", `fallback_used` `False`, and no
network call is made. -/
theorem convert_amount_mult_identity (a : Rat) (b q : String)
    (d : Except Unit JVal) (api : String) :
    ((convertAmount a b q d api).1.amountQuote
      = (convertAmount a b q d api).1.amountBase * (convertAmount a b q d api).1.rate)
    ∧ (pyUpper b = pyUpper q →
        (convertAmount a b q d api).1.rate = 1
        ∧ (convertAmount a b q d api).1.amountQuote = a
        ∧ (convertAmount a b q d api).1.provider = "identity"
        ∧ (convertAmount a b q d api).1.fallbackUsed = false
        ∧ (convertAmount a b q d api).2 = 0) := by
  unfold convertAmount
  by_cases h : pyUpper b = pyUpper q
  · simp [h]
  · simp only [h, if_false]
    constructor
    · rcases hf : fetchRateHttp d with _ | ⟨r, raw⟩ <;> simp [hf] <;>
        rcases r with _ | r <;> simp
    · intro hc
      exact hc.elim

/-- Witness for `convert_amount_mult_identity` at `amount = 2`,
`base = "usd"`, `quote = "USD"`, with the FX request failing. -/
theorem convert_amount_mult_identity_witness :
    (convertAmount 2 "usd" "USD" (.error ()) "x").1.rate = 1
    ∧ (convertAmount 2 "usd" "USD" (.error ()) "x").1.amountQuote = 2
    ∧ (convertAmount 2 "usd" "USD" (.error ()) "x").1.provider = "identity"
    ∧ (convertAmount 2 "usd" "USD" (.error ()) "x").1.fallbackUsed = false
    ∧ (convertAmount 2 "usd" "USD" (.error ()) "x").2 = 0 :=
  (convert_amount_mult_identity 2 "usd" "USD" (.error ()) "x").2 (by decide)

/-- C4 counterexample: the notifier tool's own HTTP POST *is* wrapped in
`try/except`, but the handler re-raises `McpError` instead of
substituting a default value, so a failing webhook call does propagate an
exception to the caller of `send_procurement_plan_webhook` — refuting the
claim that no failure of a call to one of the three HTTP tool endpoints
propagates. -/
theorem webhook_call_failure_propagates :
    sendPlanWebhookTool "https://example.com/hook" (.obj []) (.error ()) = .error () :=
  rfl

/-- C4 (amended): the agent-side calls to the three MCP endpoints all go
through `_call_mcp_tool_json`, which catches every exception and
substitutes an error string, so no failure propagates to the agent; the
webhook tool however re-raises `McpError` exactly when its POST raises,
and the catalog-search tool re-raises `McpError` when its catalog request
fails (for any non-empty query). -/
theorem mcp_call_failure_handling :
    (∀ (toolName exc : String), callMcpToolJson toolName (.error exc)
        = .str ("Error calling tool \x27" ++ toolName ++ "\x27: " ++ exc))
    ∧ (∀ (url : String) (plan : JVal) (post : Except Unit HttpResponse),
        (sendPlanWebhookTool url plan post).isOk = post.isOk)
    ∧ (∀ (q : String) (l : Int) (cur : String), pyStrip q ≠ "" →
        searchProducts q l (.error ()) cur = .error ()) := by
  refine ⟨fun _ _ => rfl, fun url plan post => ?_, fun q l cur h => ?_⟩
  · cases post <;> rfl
  · unfold searchProducts
    rw [if_neg h]
    rfl

/-- Witness for `mcp_call_failure_handling` at concrete inputs. -/
theorem mcp_call_failure_handling_witness :
    callMcpToolJson "t" (.error "boom") = .str "Error calling tool \x27t\x27: boom"
    ∧ (sendPlanWebhookTool "u" (.obj []) (.ok ⟨200, none⟩)).isOk = true
    ∧ searchProducts "a" 5 (.error ()) "USD" = .error () :=
  ⟨mcp_call_failure_handling.1 "t" "boom",
   (mcp_call_failure_handling.2.1 "u" (.obj []) (.ok ⟨200, none⟩)).trans rfl,
   mcp_call_failure_handling.2.2 "a" 5 "USD" (by decide)⟩

/-- C5 counterexample: on a dict whose `currency` field is present but
empty, `_aggregate_totals_from_supplier_response` returns currency
`"USD"`, not the field's value `""` as the claim (read literally) states:
the code computes `str(resp.get("currency") or "USD")`, replacing every
falsy currency. -/
theorem aggregate_currency_counterexample :
    aggregateTotals (.obj [("currency", .str ""), ("total_min_cost", .int 3)])
      = .ok ⟨"USD", 3, 0⟩ ∧ ("USD" : String) ≠ "" :=
  ⟨by with_unfolding_all rfl, by decide⟩

/-- Model of `blockQty` agrees with its claim-side description on well-formed
blocks. -/
theorem blockQty_of_wf (b : JVal) (h : blockWFb b = true) :
    blockQty b = .ok (specBlockQty b) := by
  cases b with
  | obj bkvs =>
    simp only [blockWFb] at h
    simp only [blockQty, specBlockQty, JVal.get, JVal.getD]
    rcases hor : pyOr ((JVal.lookup bkvs "item").getD .null) (.obj []) with
      _ | _ | _ | _ | _ | _ | ikvs <;> simp_all [JVal.getD]
  | null => simp [blockWFb] at h
  | bool b => simp [blockWFb] at h
  | int n => simp [blockWFb] at h
  | float q => simp [blockWFb] at h
  | str s => simp [blockWFb] at h
  | arr xs => simp [blockWFb] at h

/-- Model of `mapM blockQty` succeeds with the claim-side quantities on
well-formed block lists. -/
theorem mapM_blockQty_of_wf (blocks : List JVal)
    (h : ∀ b ∈ blocks, blockWFb b = true) :
    blocks.mapM blockQty = .ok (blocks.map specBlockQty) := by
  induction blocks with
  | nil => rfl
  | cons b rest ih =>
    rw [List.mapM_cons, blockQty_of_wf b (h b (by simp)), List.map_cons]
    simp only [bind, Except.bind, pure, Except.pure]
    rw [ih (fun x hx => h x (by simp [hx]))]

/-- Model of `str(v or "USD")` picks the field when truthy, else `"USD"`. -/
theorem pyStr_pyOr_usd (v : JVal) :
    pyStr (pyOr v (.str "USD")) = if v.truthy then pyStr v else "USD" := by
  unfold pyOr
  by_cases h : v.truthy <;> simp [h, pyStr]

/-- C5 (amended): `_aggregate_totals_from_supplier_response` returns
`Totals("USD", 0.0, 0)` for every non-dict input; for a dict input it
unwraps a `structuredContent`/`structured_content` wrapper when that key
holds a dict, and — whenever the unwrapped `items` field is falsy or a
list of well-formed blocks — returns `total_items` the sum of each
block's item quantity parsed as int (0 when unparsable), `total_net`
`float` of `total_min_cost` (0.0 when absent/unparsable), and currency
the `currency` field converted by `str` when that field is truthy, `"USD"`
otherwise (absent, null, empty or otherwise falsy); a truthy non-list
`items` field or malformed block makes the function raise instead. -/
theorem aggregate_totals_amended (resp : JVal) :
    (resp.isObj = false → aggregateTotals resp = .ok ⟨"USD", 0, 0⟩)
    ∧ (aggWF resp = true → aggregateTotals resp = .ok (aggregateSpecTotals resp)) := by
  constructor
  · intro h
    cases resp <;> simp [JVal.isObj] at h ⊢ <;> rfl
  · intro h
    cases resp with
    | obj kvs =>
      simp only [aggWF] at h
      simp only [aggregateTotals, aggregateSpecTotals, specBlocks]
      split
      · rename_i blocks heq
        rw [heq] at h
        simp at h
        rw [mapM_blockQty_of_wf blocks h]
        simp only [bind, Except.bind, pure, Except.pure, Except.ok.injEq]
        rw [pyStr_pyOr_usd]
      · rename_i x hne
        rcases hscrut : pyOr ((aggUnwrap kvs).getD "items" (.arr [])) (.arr []) with
          _ | _ | _ | _ | _ | bl | _ <;> rw [hscrut] at h <;> simp at h
        exact (hne bl hscrut).elim
    | null => rfl
    | bool b => rfl
    | int n => rfl
    | float q => rfl
    | str s => rfl
    | arr xs => rfl

/-- Witness for `aggregate_totals_amended` on a wrapped supplier payload
with two item blocks (`"4"` parses to 4, `2.5` truncates to 2). -/
theorem aggregate_totals_amended_witness :
    (JVal.obj [("structuredContent", JVal.obj [("currency", JVal.str "EUR"),
        ("total_min_cost", JVal.str "2.5"),
        ("items", JVal.arr [JVal.obj [("item", JVal.obj [("quantity", JVal.str "4")])],
          JVal.obj [("item", JVal.obj [("quantity", JVal.float (5/2))])]])])]).isObj = true
    ∧ aggregateTotals (JVal.obj [("structuredContent", JVal.obj [("currency", JVal.str "EUR"),
        ("total_min_cost", JVal.str "2.5"),
        ("items", JVal.arr [JVal.obj [("item", JVal.obj [("quantity", JVal.str "4")])],
          JVal.obj [("item", JVal.obj [("quantity", JVal.float (5/2))])]])])])
      = .ok ⟨"EUR", 5/2, 6⟩ := by
  refine ⟨rfl, ?_⟩
  have h := (aggregate_totals_amended (JVal.obj [("structuredContent",
    JVal.obj [("currency", JVal.str "EUR"),
      ("total_min_cost", JVal.str "2.5"),
      ("items", JVal.arr [JVal.obj [("item", JVal.obj [("quantity", JVal.str "4")])],
        JVal.obj [("item", JVal.obj [("quantity", JVal.float (5/2))])]])])])).2
    (by with_unfolding_all rfl)
  rw [h]
  with_unfolding_all rfl

/-- C6 counterexample: on a result whose `structuredContent` attribute is
the dict `\x7b"structuredContent": \x7b\x7d\x7d`, the nested
`structuredContent` dict is present (it is the empty dict), yet the code
returns the outer dict rather than the nested one: the chain
`sc.get("structuredContent") or sc.get("structured_content")` discards
the falsy empty dict, refuting "returning its nested
structuredContent/structured_content dict when present". -/
theorem extract_nested_empty_counterexample :
    extractStructured ⟨some (.obj [("structuredContent", .obj [])]), none, none⟩
      = .obj [("structuredContent", .obj [])]
    ∧ JVal.obj [("structuredContent", .obj [])] ≠ .obj [] :=
  ⟨rfl, by simp⟩

/-- The one-level unwrap of the code equals the claim-side description. -/
theorem unwrapOne_eq_unwrapSpec (kvs : List (String × JVal)) :
    unwrapOne kvs = unwrapSpec kvs := rfl

/-- The content-block loop equals its claim-side description. -/
theorem extractFromContents_eq_jsonDictBlocks (bs : List ContentBlock) :
    extractFromContents bs = jsonDictBlocks bs := by
  induction bs with
  | nil => rfl
  | cons c rest ih =>
    unfold extractFromContents jsonDictBlocks
    rcases hct : c.text with _ | t
    · simpa [List.findSome?_cons, hct, jsonDictBlocks] using ih
    · by_cases ht : t = ""
      · simpa [List.findSome?_cons, hct, ht, jsonDictBlocks] using ih
      · rcases hj : jsonLoads t with _ | v
        · simpa [List.findSome?_cons, hct, ht, hj, jsonDictBlocks] using ih
        · rcases v with _ | _ | _ | _ | _ | _ | kvs <;>
            simpa [List.findSome?_cons, hct, ht, hj, jsonDictBlocks,
              unwrapOne_eq_unwrapSpec] using ih

/-- The shared tail of the unwrapper (content blocks, then raw text,
then empty dict) equals its claim-side description. -/
theorem extractTail_eq (contents : List ContentBlock) :
    (match extractFromContents contents with
     | some v => v
     | none =>
       match contents with
       | [] => JVal.obj []
       | c :: _ =>
         match c.text with
         | some t => if t = "" then JVal.obj [] else JVal.str t
         | none => JVal.obj []) =
    ((jsonDictBlocks contents).orElse fun _ => rawTextBlock contents).getD (.obj []) := by
  rw [extractFromContents_eq_jsonDictBlocks]
  rcases hjd : jsonDictBlocks contents with _ | v
  · rcases contents with _ | ⟨c, rest⟩
    · simp [rawTextBlock, Option.orElse]
    · rcases hct : c.text with _ | t
      · simp [rawTextBlock, Option.orElse, hct]
      · by_cases ht : t = "" <;> simp [rawTextBlock, Option.orElse, hct, ht]
  · simp [Option.orElse]

/-- C6 (amended): `_extract_structured_from_mcp_result` tries the wire
shapes in a fixed priority for every tool result: a dict
`structuredContent` attribute — returning the first truthy of its nested
`structuredContent`/`structured_content` entries when that value is a
dict, else the dict itself — then a dict `structured_content` attribute
treated the same way, then the first content block whose truthy text
parses as a JSON dict (unwrapped the same way), then the truthy raw text
of the first content block, and an empty dict when every shape fails. -/
theorem extract_structured_eq_spec (r : MCPToolResult) :
    extractStructured r = extractSpec r := by
  obtain ⟨sc, sc2, con⟩ := r
  rcases sc with _ | v
  case some =>
    rcases v with _ | _ | _ | _ | _ | _ | kvs
    case obj => exact unwrapOne_eq_unwrapSpec kvs
    all_goals
      rcases sc2 with _ | v2
      case some =>
        rcases v2 with _ | _ | _ | _ | _ | _ | kvs2
        case obj => exact unwrapOne_eq_unwrapSpec kvs2
        all_goals exact extractTail_eq _
      case none => exact extractTail_eq _
  case none =>
    rcases sc2 with _ | v2
    case some =>
      rcases v2 with _ | _ | _ | _ | _ | _ | kvs2
      case obj => exact unwrapOne_eq_unwrapSpec kvs2
      all_goals exact extractTail_eq _
    case none => exact extractTail_eq _

/-- C2 counterexample: with the query `" a "` (stripped form `"a"`,
non-empty) and limit 1 against a catalog with one product titled `"a"`,
`search_products` returns that product, whose title does not contain the
query `" a "` as a case-insensitive substring — the code matches against
the *stripped* query, refuting the claim as stated. -/
theorem search_products_strip_counterexample :
    searchProducts " a " 1
        (.ok (.arr [.obj [("id", .int 1), ("title", .str "a"), ("price", .int 1)]])) "USD"
      = .ok ⟨" a ", 1, "USD", [⟨"1", "a", 1, "USD", none⟩]⟩
    ∧ strContains (pyLower "a") (pyLower " a ") = false :=
  ⟨by with_unfolding_all rfl, by decide⟩

/-- Model of `validateSummary` never alters the summary it validates. -/
theorem validateSummary_ok_eq (s s' : PSummary) (i : Option JVal)
    (h : validateSummary s i = .ok s') : s' = s := by
  unfold validateSummary at h
  by_cases hp : s.price ≤ 0
  · rw [if_pos hp] at h
    cases h
  · rw [if_neg hp] at h
    rcases i with _ | v
    · cases h
      rfl
    · rcases v with _ | _ | _ | _ | u | _ | _ <;> dsimp only at h <;> try cases h
      by_cases hu : pyStartsWith u "http://" ∨ pyStartsWith u "https://"
      · rw [if_pos hu] at h
        cases h
        rfl
      · rw [if_neg hu] at h
        cases h

/-- On the empty string, the substring test holds only for an empty
needle. -/
theorem strContains_empty_hay (needle : String) :
    strContains "" needle = needle.toList.isEmpty := rfl

/-- A string with an empty character list is the empty string. -/
theorem string_toList_isEmpty (s : String) : s.toList.isEmpty = true ↔ s = "" := by
  constructor
  · intro h
    obtain ⟨l⟩ := s
    cases l
    · decide
    · simp [String.toList] at h
  · intro h
    subst h
    rfl

/-- A summary produced by `matchOne` has the needle as a case-insensitive
substring of its (lower-cased) title, provided the needle is non-empty. -/
theorem matchOne_sound (needle cur : String) (p : JVal) (s : PSummary)
    (hne : needle ≠ "") (h : matchOne needle cur p = .ok (some s)) :
    strContains (pyLower s.title) needle = true := by
  unfold matchOne at h
  simp only [bind, Except.bind] at h
  cases h1 : p.getDE "title" (.str "") with
  | error e => rw [h1] at h; exact Except.noConfusion h
  | ok tRaw =>
    rw [h1] at h
    dsimp only at h
    by_cases hc : strContains (pyLower (pyStrip (pyStr tRaw))) needle = true
    · rw [if_pos hc] at h
      cases h2 : p.getE "id" with
      | error e => rw [h2] at h; exact Except.noConfusion h
      | ok idRaw =>
        rw [h2] at h
        dsimp only at h
        cases h3 : p.getDE "price" (.float 0) with
        | error e => rw [h3] at h; exact Except.noConfusion h
        | ok priceRaw =>
          rw [h3] at h
          dsimp only at h
          cases h4 : pyFloat priceRaw with
          | none => rw [h4] at h; exact Except.noConfusion h
          | some price =>
            rw [h4] at h
            dsimp only at h
            cases h5 : p.getE "image" with
            | error e => rw [h5] at h; exact Except.noConfusion h
            | ok imgRaw0 =>
              rw [h5] at h
              dsimp only at h
              cases h6 : validateSummary
                  ⟨pyStr idRaw,
                   (if pyStrip (pyStr tRaw) ≠ "" then pyStrip (pyStr tRaw)
                    else "Product " ++ pyStr idRaw),
                   price, cur,
                   (match (if imgRaw0.truthy then some imgRaw0 else none) with
                    | some (.str u) => some u
                    | _ => none)⟩
                  (if imgRaw0.truthy then some imgRaw0 else none) with
              | error e => rw [h6] at h; exact Except.noConfusion h
              | ok s2 =>
                rw [h6] at h
                dsimp only at h
                cases h
                have hs := validateSummary_ok_eq _ _ _ h6
                subst hs
                by_cases ht : pyStrip (pyStr tRaw) = ""
                · have h0 : pyLower "" = "" := by decide
                  rw [ht, h0, strContains_empty_hay] at hc
                  exact absurd ((string_toList_isEmpty needle).mp hc) hne
                · dsimp only
                  rw [if_pos ht]
                  exact hc
    · rw [if_neg hc] at h
      exact Option.noConfusion (Except.ok.inj h)

/-- Every summary returned by `collectMatches` was produced by `matchOne`
on some catalog product, hence satisfies the substring property. -/
theorem collectMatches_sound (needle cur : String) (hne : needle ≠ "") :
    ∀ (ps : List JVal) (ms : List PSummary),
      collectMatches needle cur ps = .ok ms →
      ∀ p ∈ ms, strContains (pyLower p.title) needle = true := by
  intro ps
  induction ps with
  | nil =>
    intro ms h p hp
    cases h
    simp at hp
  | cons q rest ih =>
    intro ms h p hp
    unfold collectMatches at h
    cases h1 : matchOne needle cur q with
    | error e => rw [h1] at h; cases h
    | ok o =>
      rw [h1] at h
      simp only [bind, Except.bind] at h
      cases o with
      | none => exact ih ms h p hp
      | some s =>
        cases h2 : collectMatches needle cur rest with
        | error e => rw [h2] at h; simp [Except.map] at h
        | ok ms' =>
          rw [h2] at h
          simp only [Except.map] at h
          cases h
          rcases List.mem_cons.mp hp with hp | hp
          · subst hp
            exact matchOne_sound needle cur q p hne h1
          · exact ih ms' h2 p hp

/-- Lower-casing preserves (non-)emptiness. -/
theorem pyLower_eq_empty_iff (t : String) : pyLower t = "" ↔ t = "" := by
  obtain ⟨l⟩ := t
  constructor
  · intro h
    have hd : (l.map Char.toLower) = ("" : String).data := congrArg String.data h
    have : l = [] := by simpa using hd
    subst this
    rfl
  · intro h
    rw [h]
    decide

/-- The slice of the price-sorted match list is short, sorted, made of
matches, and forms the cheapest prefix of some permutation of the
matches. -/
theorem slice_sorted_props (ms : List PSummary) (m : Int) (hm : 0 ≤ m) :
    (pySlice (List.insertionSort priceLE ms) m).length ≤ m.toNat
    ∧ List.Sorted priceLE (pySlice (List.insertionSort priceLE ms) m)
    ∧ (∀ p ∈ pySlice (List.insertionSort priceLE ms) m, p ∈ ms)
    ∧ ∃ dropped, List.Perm (pySlice (List.insertionSort priceLE ms) m ++ dropped) ms
        ∧ ∀ x ∈ pySlice (List.insertionSort priceLE ms) m, ∀ y ∈ dropped,
            priceLE x y := by
  have hnlt : ¬ m < 0 := not_lt.mpr hm
  unfold pySlice
  rw [if_neg hnlt]
  have hsort : List.Sorted priceLE (List.insertionSort priceLE ms) :=
    List.sorted_insertionSort priceLE ms
  have hperm : List.Perm (List.insertionSort priceLE ms) ms :=
    List.perm_insertionSort priceLE ms
  refine ⟨List.length_take_le _ _, ?_, ?_, ?_⟩
  · exact List.Pairwise.sublist (List.take_sublist _ _) hsort
  · intro p hp
    exact hperm.mem_iff.mp (List.mem_of_mem_take hp)
  · refine ⟨(List.insertionSort priceLE ms).drop m.toNat, ?_, ?_⟩
    · rw [List.take_append_drop]
      exact hperm
    · intro x hx y hy
      have hp2 := hsort
      rw [← List.take_append_drop m.toNat (List.insertionSort priceLE ms)] at hp2
      exact (List.pairwise_append.mp hp2).2.2 x hx y hy

/-- C2 (amended): for every query whose *stripped* form is non-empty and
every limit between 1 and 50, whenever `search_products` returns (rather
than raising), it returns at most `limit` products; every returned
product's title contains the stripped query as a case-insensitive
substring; the list is sorted by price in non-decreasing order; and it is
the `limit` cheapest matching products of the fetched catalog (the
returned list, extended by some remainder that is pointwise at least as
expensive, is a permutation of all matches). -/
theorem search_products_amended (query : String) (limit : Int)
    (fetch : Except Unit JVal) (cur : String) (res : SearchResult)
    (h1 : 1 ≤ limit) (h2 : limit ≤ 50) (h3 : pyStrip query ≠ "")
    (hres : searchProducts query limit fetch cur = .ok res) :
    res.items.length ≤ limit.toNat
    ∧ List.Sorted priceLE res.items
    ∧ (∀ p ∈ res.items, strContains (pyLower p.title) (pyLower (pyStrip query)) = true)
    ∧ (∀ products ms, fetch = .ok (.arr products) →
        collectMatches (pyLower (pyStrip query)) cur products = .ok ms →
        ∃ dropped, List.Perm (res.items ++ dropped) ms
          ∧ ∀ x ∈ res.items, ∀ y ∈ dropped, priceLE x y) := by
  have hm : (0 : Int) ≤ limit := le_trans (by norm_num) h1
  have hneedle : pyLower (pyStrip query) ≠ "" := by
    intro hc
    exact h3 ((pyLower_eq_empty_iff _).mp hc)
  unfold searchProducts at hres
  rw [if_neg h3] at hres
  simp only [bind, Except.bind] at hres
  cases hf : fetch with
  | error e =>
    rw [hf] at hres
    exact Except.noConfusion hres
  | ok j =>
    rw [hf] at hres
    dsimp only at hres
    rcases j with _ | _ | _ | _ | _ | _ | products | _
    case arr products =>
      dsimp only at hres
      cases hcm : collectMatches (pyLower (pyStrip query)) cur products with
      | error e =>
        rw [hcm] at hres
        exact Except.noConfusion hres
      | ok ms =>
        rw [hcm] at hres
        dsimp only at hres
        cases hres
        obtain ⟨hlen, hsorted, hmem, hdrop⟩ := slice_sorted_props ms limit hm
        refine ⟨hlen, hsorted, ?_, ?_⟩
        · intro p hp
          exact collectMatches_sound _ _ hneedle products ms hcm p (hmem p hp)
        · intro products' ms' hf' hcm'
          have hj : JVal.arr products = JVal.arr products' := Except.ok.inj hf'
          cases hj
          rw [hcm] at hcm'
          cases Except.ok.inj hcm'
          exact hdrop
    all_goals {
      dsimp only at hres
      cases hres
      refine ⟨by simp [pySlice], by simp [pySlice, List.Sorted], ?_, ?_⟩
      · intro p hp
        simp [pySlice] at hp
      · intro products' ms' hf' hcm'
        exact absurd (Except.ok.inj hf') (by simp) }

/-- Witness for `search_products_amended` on a three-product catalog with
query `"lap"` and limit 2. -/
theorem search_products_amended_witness :
    (1 : Int) ≤ 2 ∧ (2 : Int) ≤ 50 ∧ pyStrip "lap" ≠ ""
    ∧ ∃ res, searchProducts "lap" 2
        (.ok (.arr [
          .obj [("id", .int 1), ("title", .str " Laptop Pro "), ("price", .float (5/2))],
          .obj [("id", .int 2), ("title", .str "cheap laptop"), ("price", .int 1)],
          .obj [("id", .int 3), ("title", .str "mouse"), ("price", .int 9)]])) "USD"
        = .ok res
      ∧ res.items.length ≤ (2 : Int).toNat
      ∧ List.Sorted priceLE res.items
      ∧ ∀ p ∈ res.items, strContains (pyLower p.title) (pyLower (pyStrip "lap")) = true := by
  refine ⟨by norm_num, by norm_num, by decide,
    ⟨⟨"lap", 2, "USD",
      [⟨"2", "cheap laptop", 1, "USD", none⟩, ⟨"1", "Laptop Pro", 5/2, "USD", none⟩]⟩,
     by with_unfolding_all rfl, ?_⟩⟩
  have h := search_products_amended "lap" 2
    (.ok (.arr [
      .obj [("id", .int 1), ("title", .str " Laptop Pro "), ("price", .float (5/2))],
      .obj [("id", .int 2), ("title", .str "cheap laptop"), ("price", .int 1)],
      .obj [("id", .int 3), ("title", .str "mouse"), ("price", .int 9)]])) "USD"
    ⟨"lap", 2, "USD",
      [⟨"2", "cheap laptop", 1, "USD", none⟩, ⟨"1", "Laptop Pro", 5/2, "USD", none⟩]⟩
    (by norm_num) (by norm_num) (by decide) (by with_unfolding_all rfl)
  exact ⟨h.1, h.2.1, h.2.2.1⟩

/-- C7: in pipeline mode, for every parsed request and tool responses,
whenever the supplier-response aggregation succeeds the tools are called
in a fixed order: the supplier-offers tool exactly once first; then the
currency-conversion tool, and only when the supplier currency differs
case-insensitively from the target currency and the supplier total is
strictly positive; then the webhook tool, and only when the parsed
request contains a `webhook_url` — exactly this trace, so no other order
or repetition occurs. -/
theorem build_plan_call_order (parsed : ParsedRequest)
    (supplierResp fxResp webhookResp : JVal) (totals : Totals)
    (hagg : aggregateTotals supplierResp = .ok totals) :
    ∃ plan, buildProcurementPlan parsed supplierResp fxResp webhookResp
      = .ok (plan,
        ["get_offers_for_items"]
        ++ (if pipelineFxCond totals parsed.targetCurrency then ["convert_amount"] else [])
        ++ (if parsed.webhookUrl.isSome then ["send_procurement_plan_webhook"] else [])) := by
  unfold buildProcurementPlan
  simp only [bind, Except.bind]
  rw [hagg]
  dsimp only
  by_cases hfx : pipelineFxCond totals parsed.targetCurrency = true <;>
    cases hw : parsed.webhookUrl <;>
      simp [hfx, hw]

/-- Witness for `build_plan_call_order`: a request with a webhook URL, an
error-string supplier response (aggregating to zero totals, so no FX
call) — the trace is the supplier call followed by the webhook call. -/
theorem build_plan_call_order_witness :
    ∃ plan, buildProcurementPlan ⟨"EUR", none, some "https://h", []⟩
        (.str "x") (.obj []) (.obj [])
      = .ok (plan, ["get_offers_for_items", "send_procurement_plan_webhook"]) := by
  obtain ⟨plan, hp⟩ := build_plan_call_order ⟨"EUR", none, some "https://h", []⟩
    (.str "x") (.obj []) (.obj []) ⟨"USD", 0, 0⟩ (by with_unfolding_all rfl)
  refine ⟨plan, ?_⟩
  rw [hp]
  with_unfolding_all rfl

/-- The Printful loop appends exactly one block per item, carrying the
item unchanged. -/
theorem printfulLoop_blocks (d : String) (m : Int) (f : Nat → PrintfulFetch) :
    ∀ (items : List Item) (idx : Nat) (st st' : OffState),
      printfulLoop d m f items idx st = .ok st' →
      st'.blocks.map ItemBlock.item = st.blocks.map ItemBlock.item ++ items := by
  intro items
  induction items with
  | nil =>
    intro idx st st' h
    cases h
    simp
  | cons item rest ih =>
    intro idx st st' h
    unfold printfulLoop at h
    simp only [bind, Except.bind] at h
    repeat' split at h
    all_goals try exact Except.noConfusion h
    all_goals have hrec := ih _ _ _ h
    all_goals simp only [List.map_append] at hrec
    all_goals simpa using hrec

/-- The FakeStore loop appends exactly one block per item, carrying the
item unchanged. -/
theorem fakestoreLoop_blocks (d : String) (m : Int) (products : List JVal) :
    ∀ (items : List Item) (st st' : OffState),
      fakestoreLoop d m products items st = .ok st' →
      st'.blocks.map ItemBlock.item = st.blocks.map ItemBlock.item ++ items := by
  intro items
  induction items with
  | nil =>
    intro st st' h
    cases h
    simp
  | cons item rest ih =>
    intro st st' h
    unfold fakestoreLoop at h
    simp only [bind, Except.bind] at h
    repeat' split at h
    all_goals try exact Except.noConfusion h
    all_goals have hrec := ih _ _ h
    all_goals simp only [List.map_append] at hrec
    all_goals simpa using hrec

/-- When `_get_offers_from_printful` returns, its blocks carry the input
items in order. -/
theorem printfulModel_blocks (hk : Bool) (d : String) (items : List Item)
    (m : Int) (f : Nat → PrintfulFetch) (st : Structured)
    (h : printfulModel hk d items m f = .ok st) :
    st.items.map ItemBlock.item = items := by
  unfold printfulModel at h
  split at h
  · exact Except.noConfusion h
  · simp only [bind, Except.bind] at h
    cases hl : printfulLoop d m f items 0 {} with
    | error e => rw [hl] at h; exact Except.noConfusion h
    | ok st0 =>
      rw [hl] at h
      dsimp only at h
      cases h
      simpa using printfulLoop_blocks d m f items 0 {} st0 hl

/-- When `_get_offers_from_fakestore` returns, its blocks carry the input
items in order. -/
theorem fakestoreModel_blocks (d : String) (items : List Item) (m : Int)
    (fetchJson : Except Unit JVal) (r : Option String) (st : Structured)
    (h : fakestoreModel d items m fetchJson r = .ok st) :
    st.items.map ItemBlock.item = items := by
  unfold fakestoreModel at h
  simp only [bind, Except.bind] at h
  cases fetchJson with
  | error e => exact Except.noConfusion h
  | ok j =>
    dsimp only at h
    rcases j with _ | _ | _ | _ | _ | products | _ <;> try exact Except.noConfusion h
    dsimp only at h
    cases hl : fakestoreLoop d m products items {} with
    | error e => rw [hl] at h; exact Except.noConfusion h
    | ok st0 =>
      rw [hl] at h
      dsimp only at h
      cases h
      simpa using fakestoreLoop_blocks d m products items {} st0 hl

/-- The demo structure carries the input items in order. -/
theorem demoStructured_blocks (d : String) (items : List Item) (r : String) :
    (demoStructured d items r).items.map ItemBlock.item = items := by
  simp [demoStructured, List.map_map]
  exact List.map_id items

/-- The fallback tiers (FakeStore, then demo) carry the input items. -/
theorem fallback_blocks (fsFetch : Except Unit JVal) (items : List Item)
    (m : Int) (d : String) (pReason : String) :
    ((getOffersFallback fsFetch items m d pReason).structuredContent.items.map
      ItemBlock.item) = items := by
  unfold getOffersFallback
  cases hfs : fakestoreModel d items m fsFetch (some pReason) with
  | ok st => exact fakestoreModel_blocks d items m fsFetch (some pReason) st hfs
  | error e => exact demoStructured_blocks d items _

/-- C9: in every provider mode (Printful, FakeStore, demo fallback) and
for every configuration and network behaviour, the `structuredContent`
returned by `get_offers_for_items` contains exactly one item block per
input item, in the same order, each block's `item` field equal to the
corresponding input element unchanged (stated as: mapping the blocks to
their `item` fields yields the input list). -/
theorem offers_blocks_match_items (up : Bool) (key : Option String)
    (pFetch : Nat → PrintfulFetch) (fsFetch : Except Unit JVal)
    (items : List Item) (maxSup : Int) (defCur : String) :
    ((getOffersForItems up key pFetch fsFetch items maxSup defCur).structuredContent.items.map
      ItemBlock.item) = items := by
  unfold getOffersForItems
  dsimp only
  by_cases hup : (up && keyTruthy key) = true
  · rw [if_pos hup]
    cases hp : printfulModel (keyTruthy key) defCur items maxSup pFetch with
    | ok st => exact printfulModel_blocks _ _ _ _ _ st hp
    | error e => exact fallback_blocks fsFetch items maxSup defCur _
  · rw [if_neg hup]
    exact fallback_blocks fsFetch items maxSup defCur _

/-- Slicing a singleton with any bound ≥ 1 is the identity. -/
theorem pySlice_singleton (x : α) (m : Int) (hm : 1 ≤ m) : pySlice [x] m = [x] := by
  unfold pySlice
  rw [if_neg (not_lt.mpr (le_trans zero_le_one hm))]
  have h1 : 1 ≤ m.toNat := by omega
  exact List.take_of_length_le (by simpa using h1)

/-- A slice of a singleton never has more than one element. -/
theorem pySlice_singleton_len (x : α) (m : Int) : (pySlice [x] m).length ≤ 1 := by
  unfold pySlice
  simp [List.length_take]

/-- The Printful loop does not depend on `max_suppliers_per_item` as long
as it is ≥ 1: the offers list is a singleton before truncation. -/
theorem printfulLoop_maxSup (d : String) (f : Nat → PrintfulFetch) (m : Int)
    (hm : 1 ≤ m) :
    ∀ (items : List Item) (idx : Nat) (st : OffState),
      printfulLoop d m f items idx st = printfulLoop d 1 f items idx st := by
  intro items
  induction items with
  | nil => intro idx st; rfl
  | cons item rest ih =>
    intro idx st
    unfold printfulLoop
    have hs : ∀ x : Offer, pySlice [x] m = pySlice [x] 1 := fun x => by
      rw [pySlice_singleton x m hm, pySlice_singleton x 1 le_rfl]
    simp only [ih, hs]

/-- Same for the FakeStore loop. -/
theorem fakestoreLoop_maxSup (d : String) (products : List JVal) (m : Int)
    (hm : 1 ≤ m) :
    ∀ (items : List Item) (st : OffState),
      fakestoreLoop d m products items st = fakestoreLoop d 1 products items st := by
  intro items
  induction items with
  | nil => intro st; rfl
  | cons item rest ih =>
    intro st
    unfold fakestoreLoop
    have hs : ∀ x : Offer, pySlice [x] m = pySlice [x] 1 := fun x => by
      rw [pySlice_singleton x m hm, pySlice_singleton x 1 le_rfl]
    simp only [ih, hs]

/-- Every block the Printful loop appends has at most one offer. -/
theorem printfulLoop_offers (d : String) (m : Int) (f : Nat → PrintfulFetch) :
    ∀ (items : List Item) (idx : Nat) (st st' : OffState),
      printfulLoop d m f items idx st = .ok st' →
      (∀ b ∈ st.blocks, b.offers.length ≤ 1) →
      ∀ b ∈ st'.blocks, b.offers.length ≤ 1 := by
  intro items
  induction items with
  | nil =>
    intro idx st st' h hst
    cases h
    exact hst
  | cons item rest ih =>
    intro idx st st' h hst
    unfold printfulLoop at h
    simp only [bind, Except.bind] at h
    repeat' split at h
    all_goals try exact Except.noConfusion h
    all_goals refine ih _ _ _ h ?_
    all_goals intro b hb
    all_goals rcases List.mem_append.mp hb with hb | hb
    all_goals try exact hst b hb
    all_goals simp only [List.mem_singleton] at hb
    all_goals subst hb
    all_goals simp [pySlice_singleton_len]

/-- Every block the FakeStore loop appends has at most one offer. -/
theorem fakestoreLoop_offers (d : String) (m : Int) (products : List JVal) :
    ∀ (items : List Item) (st st' : OffState),
      fakestoreLoop d m products items st = .ok st' →
      (∀ b ∈ st.blocks, b.offers.length ≤ 1) →
      ∀ b ∈ st'.blocks, b.offers.length ≤ 1 := by
  intro items
  induction items with
  | nil =>
    intro st st' h hst
    cases h
    exact hst
  | cons item rest ih =>
    intro st st' h hst
    unfold fakestoreLoop at h
    simp only [bind, Except.bind] at h
    repeat' split at h
    all_goals try exact Except.noConfusion h
    all_goals refine ih _ _ h ?_
    all_goals intro b hb
    all_goals rcases List.mem_append.mp hb with hb | hb
    all_goals try exact hst b hb
    all_goals simp only [List.mem_singleton] at hb
    all_goals subst hb
    all_goals simp [pySlice_singleton_len]

/-- Model of `_get_offers_from_printful` ignores `max_suppliers_per_item ≥ 1`. -/
theorem printfulModel_maxSup (hk : Bool) (d : String) (items : List Item)
    (f : Nat → PrintfulFetch) (m : Int) (hm : 1 ≤ m) :
    printfulModel hk d items m f = printfulModel hk d items 1 f := by
  unfold printfulModel
  simp only [printfulLoop_maxSup d f m hm]

/-- Model of `_get_offers_from_fakestore` ignores `max_suppliers_per_item ≥ 1`. -/
theorem fakestoreModel_maxSup (d : String) (items : List Item)
    (fetchJson : Except Unit JVal) (r : Option String) (m : Int) (hm : 1 ≤ m) :
    fakestoreModel d items m fetchJson r = fakestoreModel d items 1 fetchJson r := by
  unfold fakestoreModel
  simp only [fakestoreLoop_maxSup d _ m hm]

/-- The fallback tiers ignore `max_suppliers_per_item ≥ 1`. -/
theorem fallback_maxSup (fsFetch : Except Unit JVal) (items : List Item)
    (d pReason : String) (m : Int) (hm : 1 ≤ m) :
    getOffersFallback fsFetch items m d pReason
      = getOffersFallback fsFetch items 1 d pReason := by
  unfold getOffersFallback
  simp only [fakestoreModel_maxSup d items fsFetch _ m hm]

/-- Blocks of the demo structure have no offers at all. -/
theorem demoStructured_offers (d : String) (items : List Item) (r : String) :
    ∀ b ∈ (demoStructured d items r).items, b.offers.length ≤ 1 := by
  intro b hb
  simp [demoStructured] at hb
  obtain ⟨it, _, hb⟩ := hb
  subst hb
  simp

/-- Blocks of a returned Printful structure have at most one offer. -/
theorem printfulModel_offers (hk : Bool) (d : String) (items : List Item)
    (m : Int) (f : Nat → PrintfulFetch) (st : Structured)
    (h : printfulModel hk d items m f = .ok st) :
    ∀ b ∈ st.items, b.offers.length ≤ 1 := by
  unfold printfulModel at h
  split at h
  · exact Except.noConfusion h
  · simp only [bind, Except.bind] at h
    cases hl : printfulLoop d m f items 0 {} with
    | error e => rw [hl] at h; exact Except.noConfusion h
    | ok st0 =>
      rw [hl] at h
      dsimp only at h
      cases h
      exact printfulLoop_offers d m f items 0 {} st0 hl (by simp)

/-- Blocks of a returned FakeStore structure have at most one offer. -/
theorem fakestoreModel_offers (d : String) (items : List Item) (m : Int)
    (fetchJson : Except Unit JVal) (r : Option String) (st : Structured)
    (h : fakestoreModel d items m fetchJson r = .ok st) :
    ∀ b ∈ st.items, b.offers.length ≤ 1 := by
  unfold fakestoreModel at h
  simp only [bind, Except.bind] at h
  cases fetchJson with
  | error e => exact Except.noConfusion h
  | ok j =>
    dsimp only at h
    rcases j with _ | _ | _ | _ | _ | products | _ <;> try exact Except.noConfusion h
    dsimp only at h
    cases hl : fakestoreLoop d m products items {} with
    | error e => rw [hl] at h; exact Except.noConfusion h
    | ok st0 =>
      rw [hl] at h
      dsimp only at h
      cases h
      exact fakestoreLoop_offers d m products items {} st0 hl (by simp)

/-- Blocks of the fallback tiers have at most one offer. -/
theorem fallback_offers (fsFetch : Except Unit JVal) (items : List Item)
    (m : Int) (d pReason : String) :
    ∀ b ∈ (getOffersFallback fsFetch items m d pReason).structuredContent.items,
      b.offers.length ≤ 1 := by
  unfold getOffersFallback
  cases hfs : fakestoreModel d items m fsFetch (some pReason) with
  | ok st => exact fakestoreModel_offers d items m fsFetch (some pReason) st hfs
  | error e => exact demoStructured_offers d items _

/-- C10: the result of `get_offers_for_items` is identical for every
`max_suppliers_per_item ≥ 1`, and each item block's offers list never
contains more than one offer — the singleton offer list is built before
the `[:max_suppliers_per_item]` truncation. -/
theorem offers_maxSup_irrelevant (up : Bool) (key : Option String)
    (pFetch : Nat → PrintfulFetch) (fsFetch : Except Unit JVal)
    (items : List Item) (defCur : String) (m : Int) (hm : 1 ≤ m) :
    getOffersForItems up key pFetch fsFetch items m defCur
      = getOffersForItems up key pFetch fsFetch items 1 defCur
    ∧ ∀ b ∈ (getOffersForItems up key pFetch fsFetch items m defCur).structuredContent.items,
        b.offers.length ≤ 1 := by
  constructor
  · unfold getOffersForItems
    simp only [printfulModel_maxSup _ defCur items pFetch m hm,
      fallback_maxSup fsFetch items defCur _ m hm]
  · unfold getOffersForItems
    dsimp only
    by_cases hup : (up && keyTruthy key) = true
    · rw [if_pos hup]
      cases hp : printfulModel (keyTruthy key) defCur items m pFetch with
      | ok st => exact printfulModel_offers _ _ _ _ _ st hp
      | error e => exact fallback_offers fsFetch items m defCur _
    · rw [if_neg hup]
      exact fallback_offers fsFetch items m defCur _

/-- Witness for `offers_maxSup_irrelevant` at `max_suppliers_per_item = 3`
with one item and the FakeStore provider responding. -/
theorem offers_maxSup_irrelevant_witness :
    getOffersForItems false none (fun _ => .exn)
        (.ok (.arr [.obj [("id", .int 7), ("title", .str "Mug"), ("price", .float (3/2))]]))
        [[("sku", .str "mug"), ("quantity", .int 2)]] 3 "USD"
      = getOffersForItems false none (fun _ => .exn)
        (.ok (.arr [.obj [("id", .int 7), ("title", .str "Mug"), ("price", .float (3/2))]]))
        [[("sku", .str "mug"), ("quantity", .int 2)]] 1 "USD" :=
  (offers_maxSup_irrelevant false none (fun _ => .exn)
    (.ok (.arr [.obj [("id", .int 7), ("title", .str "Mug"), ("price", .float (3/2))]]))
    [[("sku", .str "mug"), ("quantity", .int 2)]] "USD" 3 (by norm_num)).1

/-- C3 counterexample: one model response whose tool call is
`fx_convert_amount` with arguments `\x7b"amount": "x"\x7d` makes
`float(args.get("amount", 0.0))` raise, so `_run_tools_agent_dialog`
raises out of its loop after the first round instead of terminating with
a final assistant message as the claim describes. -/
theorem tools_agent_crash_counterexample :
    runToolsAgentDialog
        (fun _ => ⟨[⟨"1", "fx_convert_amount", some "\x7b\"amount\": \"x\"\x7d"⟩], none⟩)
        (fun _ _ => .obj []) 8
      = .crashed 1 := by
  with_unfolding_all rfl

/-- Dispatching a tool call succeeds exactly on well-formed calls,
independently of the MCP payload. -/
theorem dispatch_ok_iff (tc : ToolCallRec) (r : JVal) :
    (dispatchToolCall tc r).isOk = wellFormedCall tc := by
  unfold dispatchToolCall wellFormedCall
  by_cases h1 : tc.name = "supplier_get_offers"
  · simp only [if_pos h1]
    rcases callArgs tc with _ | _ | _ | _ | _ | _ | kvs <;>
      simp [JVal.getE, JVal.getDE, JVal.isObj, bind, Except.bind, Except.isOk, Except.toBool]
  · simp only [if_neg h1]
    by_cases h2 : tc.name = "fx_convert_amount"
    · simp only [if_pos h2]
      rcases hargs : callArgs tc with _ | _ | _ | _ | _ | _ | kvs <;>
        simp only [JVal.getE, JVal.getDE, JVal.isObj, bind, Except.bind] <;> try rfl
      cases hf : pyFloat ((JVal.lookup kvs "amount").getD (.float 0)) <;>
        simp [JVal.getD, hf, Except.isOk, Except.toBool]
    · simp only [if_neg h2]
      by_cases h3 : tc.name = "notify_send_plan"
      · simp only [if_pos h3]
        rcases callArgs tc with _ | _ | _ | _ | _ | _ | kvs <;>
          simp only [JVal.getE, JVal.getDE, JVal.isObj, bind, Except.bind] <;> try rfl
        split <;> rfl
      · simp only [if_neg h3]
        simp [Except.isOk, Except.toBool]

/-- Executing a round's tool calls succeeds when every call is well
formed. -/
theorem execCalls_ok (results : Nat → JVal) :
    ∀ (tcs : List ToolCallRec) (i : Nat),
      (∀ tc ∈ tcs, wellFormedCall tc = true) →
      ∃ invs, execCalls results tcs i = .ok invs := by
  intro tcs
  induction tcs with
  | nil => exact fun i _ => ⟨[], rfl⟩
  | cons tc rest ih =>
    intro i hwf
    have h1 : (dispatchToolCall tc (results i)).isOk = true :=
      (dispatch_ok_iff tc (results i)).trans (hwf tc (by simp))
    cases hd : dispatchToolCall tc (results i) with
    | error e => rw [hd] at h1; simp [Except.isOk, Except.toBool] at h1
    | ok inv =>
      obtain ⟨invs, hinvs⟩ := ih (i + 1) (fun tc h => hwf tc (by simp [h]))
      refine ⟨inv :: invs, ?_⟩
      unfold execCalls
      rw [hd, hinvs]
      rfl

/-- The loop makes at most `fuel` further requests. -/
theorem agentLoop_rounds (responses : Nat → ModelMsg) (results : Nat → Nat → JVal) :
    ∀ (fuel start : Nat) (trace : List ToolInvocation),
      roundsOf (agentLoopFrom responses results fuel start trace) ≤ start + fuel := by
  intro fuel
  induction fuel with
  | zero => intro start trace; exact Nat.le_refl _
  | succ n ih =>
    intro start trace
    unfold agentLoopFrom
    by_cases he : (responses start).toolCalls.isEmpty
    · rw [if_pos he]
      show start + 1 ≤ start + (n + 1)
      omega
    · rw [if_neg he]
      cases hx : execCalls (results start) (responses start).toolCalls 0 with
      | ok invs =>
        dsimp only
        have := ih (start + 1) (trace ++ invs)
        omega
      | error e =>
        dsimp only
        show start + 1 ≤ start + (n + 1)
        omega

/-- If the first response without tool calls occurs at index `i` (all
earlier rounds having well-formed tool calls), the loop stops there and
returns that response's content. -/
theorem agentLoop_first_stop (responses : Nat → ModelMsg) (results : Nat → Nat → JVal) :
    ∀ (fuel start : Nat) (trace : List ToolInvocation) (i : Nat),
      start ≤ i → i < start + fuel →
      (responses i).toolCalls = [] →
      (∀ j, start ≤ j → j < i → (responses j).toolCalls ≠ []) →
      (∀ j, start ≤ j → j < i → ∀ tc ∈ (responses j).toolCalls, wellFormedCall tc = true) →
      ∃ trace', agentLoopFrom responses results fuel start trace
        = .done trace' ((responses i).content.getD "") (i + 1) := by
  intro fuel
  induction fuel with
  | zero =>
    intro start trace i h1 h2 _ _ _
    omega
  | succ n ih =>
    intro start trace i h1 h2 hi hprev hwf
    unfold agentLoopFrom
    by_cases he : (responses start).toolCalls.isEmpty
    · have his : i = start := by
        by_contra hne
        exact hprev start le_rfl (by omega) (List.isEmpty_iff.mp he)
      subst his
      rw [if_pos he]
      exact ⟨trace, rfl⟩
    · have hineq : start ≠ i := by
        intro hc
        subst hc
        exact he (by simp [hi])
      rw [if_neg he]
      obtain ⟨invs, hinvs⟩ := execCalls_ok (results start) (responses start).toolCalls 0
        (hwf start le_rfl (by omega))
      rw [hinvs]
      exact ih (start + 1) (trace ++ invs) i (by omega) (by omega) hi
        (fun j hj1 hj2 => hprev j (by omega) hj2)
        (fun j hj1 hj2 => hwf j (by omega) hj2)

/-- If every round in range has (well-formed) tool calls, the loop runs
out of steps and returns the empty final message. -/
theorem agentLoop_exhaust (responses : Nat → ModelMsg) (results : Nat → Nat → JVal) :
    ∀ (fuel start : Nat) (trace : List ToolInvocation),
      (∀ j, start ≤ j → j < start + fuel → (responses j).toolCalls ≠ []) →
      (∀ j, start ≤ j → j < start + fuel →
        ∀ tc ∈ (responses j).toolCalls, wellFormedCall tc = true) →
      ∃ trace', agentLoopFrom responses results fuel start trace
        = .done trace' "" (start + fuel) := by
  intro fuel
  induction fuel with
  | zero => exact fun start trace _ _ => ⟨trace, rfl⟩
  | succ n ih =>
    intro start trace hne hwf
    unfold agentLoopFrom
    by_cases he : (responses start).toolCalls.isEmpty
    · exact absurd (List.isEmpty_iff.mp he) (hne start le_rfl (by omega))
    · rw [if_neg he]
      obtain ⟨invs, hinvs⟩ := execCalls_ok (results start) (responses start).toolCalls 0
        (hwf start le_rfl (by omega))
      rw [hinvs]
      obtain ⟨trace', ht⟩ := ih (start + 1) (trace ++ invs)
        (fun j hj1 hj2 => hne j (by omega) (by omega))
        (fun j hj1 hj2 => hwf j (by omega) (by omega))
      refine ⟨trace', ?_⟩
      dsimp only
      rw [ht]
      congr 1
      omega

/-- C3 (amended): `_run_tools_agent_dialog` makes at most `max_steps`
(default 8) chat-completion rounds.  Provided every executed round's tool
calls are well formed (arguments parsing to a dict, with a numeric
`amount` for the FX tool), it returns, at the first response with no tool
calls, that response's content as the final assistant message (empty
string when the bound is exhausted without such a response); a malformed
tool-call argument instead raises out of the loop (see the
counterexample), still within the `max_steps` bound. -/
theorem tools_agent_dialog_bounded (responses : Nat → ModelMsg)
    (results : Nat → Nat → JVal) (maxSteps : Nat) :
    roundsOf (runToolsAgentDialog responses results maxSteps) ≤ maxSteps
    ∧ (∀ i, i < maxSteps → (responses i).toolCalls = [] →
        (∀ j, j < i → (responses j).toolCalls ≠ []) →
        (∀ j, j < i → ∀ tc ∈ (responses j).toolCalls, wellFormedCall tc = true) →
        ∃ trace, runToolsAgentDialog responses results maxSteps
          = .done trace ((responses i).content.getD "") (i + 1))
    ∧ ((∀ i, i < maxSteps → (responses i).toolCalls ≠ []) →
        (∀ i, i < maxSteps → ∀ tc ∈ (responses i).toolCalls, wellFormedCall tc = true) →
        ∃ trace, runToolsAgentDialog responses results maxSteps
          = .done trace "" maxSteps) := by
  refine ⟨?_, ?_, ?_⟩
  · simpa using agentLoop_rounds responses results maxSteps 0 []
  · intro i hi hempty hprev hwf
    exact agentLoop_first_stop responses results maxSteps 0 [] i (Nat.zero_le i)
      (by omega) hempty (fun j _ hj => hprev j hj) (fun j _ hj => hwf j hj)
  · intro hne hwf
    simpa using agentLoop_exhaust responses results maxSteps 0 []
      (fun j _ hj => hne j (by omega)) (fun j _ hj => hwf j (by omega))

/-- Witness for `tools_agent_dialog_bounded`: one well-formed supplier
call in round 0, then a final message in round 1. -/
theorem tools_agent_dialog_bounded_witness :
    ∃ trace, runToolsAgentDialog
        (fun i => if i = 0
          then ⟨[⟨"1", "supplier_get_offers", some "\x7b\"items\": []\x7d"⟩], none⟩
          else ⟨[], some "FINAL"⟩)
        (fun _ _ => .obj [("r", .int 1)]) 8
      = .done trace "FINAL" 2 := by
  have h := (tools_agent_dialog_bounded
    (fun i => if i = 0
      then ⟨[⟨"1", "supplier_get_offers", some "\x7b\"items\": []\x7d"⟩], none⟩
      else ⟨[], some "FINAL"⟩)
    (fun _ _ => .obj [("r", .int 1)]) 8).2.1 1 (by omega) (by simp)
    (by
      intro j hj
      interval_cases j
      simp)
    (by
      intro j hj tc htc
      interval_cases j
      simp at htc
      subst htc
      with_unfolding_all rfl)
  simpa using h

/-- Whether the FakeStore call succeeds does not depend on the reason
string threaded through from the Printful tier. -/
theorem fakestoreModel_isOk_congr (d : String) (items : List Item) (m : Int)
    (fetchJson : Except Unit JVal) (r₁ r₂ : Option String) :
    (fakestoreModel d items m fetchJson r₁).isOk
      = (fakestoreModel d items m fetchJson r₂).isOk := by
  unfold fakestoreModel
  simp only [bind, Except.bind]
  cases fetchJson with
  | error e => rfl
  | ok j =>
    dsimp only
    rcases j with _ | _ | _ | _ | _ | products | _ <;> try rfl
    dsimp only
    cases fakestoreLoop d m products items {} <;> rfl

/-- A failing FakeStore call fails for every reason string. -/
theorem fakestoreModel_error_congr (d : String) (items : List Item) (m : Int)
    (fetchJson : Except Unit JVal) (r : Option String)
    (h : fakestoreModel d items m fetchJson none = .error ()) :
    fakestoreModel d items m fetchJson r = .error () := by
  have hok := fakestoreModel_isOk_congr d items m fetchJson r none
  rw [h] at hok
  cases hr : fakestoreModel d items m fetchJson r with
  | error e => rfl
  | ok st => rw [hr] at hok; simp [Except.isOk, Except.toBool] at hok

/-- C1: `get_offers_for_items` never raises to its caller (it is total in
this model and always returns an `isError = false` envelope) and falls
back through exactly three tiers in order: Printful is consulted only
when `USE_PRINTFUL` is set and `PRINTFUL_API_KEY` is present (otherwise
the result does not depend on the Printful network at all); when
configured and the Printful call returns, its structure is wrapped and
returned; when Printful is disabled, unconfigured or raised, a returning
FakeStore call's structure is wrapped and returned; and when the
FakeStore call raises as well, the demo envelope is returned, whose
structured content has provider `"demo_fallback"`, `fallback_used` true
and `total_min_cost` 0.0. -/
theorem get_offers_cascade (up : Bool) (key : Option String)
    (pFetch : Nat → PrintfulFetch) (fsFetch : Except Unit JVal)
    (items : List Item) (maxSup : Int) (defCur : String) (env : Envelope)
    (henv : env = getOffersForItems up key pFetch fsFetch items maxSup defCur) :
    env.isError = false
    ∧ (printfulConfigured up key = false →
        ∀ pF', env = getOffersForItems up key pF' fsFetch items maxSup defCur)
    ∧ (printfulConfigured up key = true →
        ∀ st, printfulModel (keyTruthy key) defCur items maxSup pFetch = .ok st →
          env = wrapToolResult st (formatSummaryText st none))
    ∧ ((printfulConfigured up key = false
        ∨ printfulModel (keyTruthy key) defCur items maxSup pFetch = .error ()) →
        (fakestoreModel defCur items maxSup fsFetch none).isOk = true →
        ∃ st reason, fakestoreModel defCur items maxSup fsFetch (some reason) = .ok st
          ∧ env = wrapToolResult st (formatSummaryText st none))
    ∧ ((printfulConfigured up key = false
        ∨ printfulModel (keyTruthy key) defCur items maxSup pFetch = .error ()) →
        fakestoreModel defCur items maxSup fsFetch none = .error () →
        env.structuredContent.provider = "demo_fallback"
        ∧ env.structuredContent.fallbackUsed = true
        ∧ env.structuredContent.totalMinCost = 0) := by
  subst henv
  unfold getOffersForItems
  dsimp only
  refine ⟨?_, ?_, ?_, ?_, ?_⟩
  · by_cases hup : (up && keyTruthy key) = true
    · rw [if_pos hup]
      cases printfulModel (keyTruthy key) defCur items maxSup pFetch with
      | ok st => rfl
      | error e =>
        unfold getOffersFallback
        cases fakestoreModel defCur items maxSup fsFetch _ <;> rfl
    · rw [if_neg hup]
      unfold getOffersFallback
      cases fakestoreModel defCur items maxSup fsFetch _ <;> rfl
  · intro hconf pF'
    have hup : (up && keyTruthy key) = false := hconf
    simp [hup]
  · intro hconf st hp
    have hup : (up && keyTruthy key) = true := hconf
    rw [if_pos hup, hp]
  · intro hfail hok
    by_cases hup : (up && keyTruthy key) = true
    · rcases hfail with hconf | hperr
      · unfold printfulConfigured at hconf
        rw [hconf] at hup
        simp at hup
      · rw [if_pos hup, hperr]
        unfold getOffersFallback
        cases hfs : fakestoreModel defCur items maxSup fsFetch
            (some "Printful API недоступно или вернуло ошибку: Exception(...)") with
        | ok st => exact ⟨st, _, hfs, rfl⟩
        | error e =>
          rw [fakestoreModel_isOk_congr defCur items maxSup fsFetch none (some _), hfs] at hok
          simp [Except.isOk, Except.toBool] at hok
    · rw [if_neg hup]
      unfold getOffersFallback
      cases hfs : fakestoreModel defCur items maxSup fsFetch
          (some (if ¬up = true then "USE_PRINTFUL=false (Printful отключен через конфигурацию)."
            else "PRINTFUL_API_KEY не задан, обращение к Printful невозможно.")) with
      | ok st => exact ⟨st, _, hfs, rfl⟩
      | error e =>
        rw [fakestoreModel_isOk_congr defCur items maxSup fsFetch none (some _), hfs] at hok
        simp [Except.isOk, Except.toBool] at hok
  · intro hfail herr
    by_cases hup : (up && keyTruthy key) = true
    · rcases hfail with hconf | hperr
      · unfold printfulConfigured at hconf
        rw [hconf] at hup
        simp at hup
      · rw [if_pos hup, hperr]
        unfold getOffersFallback
        rw [fakestoreModel_error_congr defCur items maxSup fsFetch _ herr]
        exact ⟨rfl, rfl, rfl⟩
    · rw [if_neg hup]
      unfold getOffersFallback
      rw [fakestoreModel_error_congr defCur items maxSup fsFetch _ herr]
      exact ⟨rfl, rfl, rfl⟩

/-- Witness for `get_offers_cascade`: Printful configured but its fetch
raising a non-HTTP exception, FakeStore unreachable — the demo tier
fields hold at a concrete input. -/
theorem get_offers_cascade_witness :
    (getOffersForItems true (some "k") (fun _ => .exn) (.error ())
        [[("sku", .str "mug"), ("quantity", .int 2)]] 3 "USD").structuredContent.provider
      = "demo_fallback"
    ∧ (getOffersForItems true (some "k") (fun _ => .exn) (.error ())
        [[("sku", .str "mug"), ("quantity", .int 2)]] 3 "USD").structuredContent.fallbackUsed
      = true
    ∧ (getOffersForItems true (some "k") (fun _ => .exn) (.error ())
        [[("sku", .str "mug"), ("quantity", .int 2)]] 3 "USD").structuredContent.totalMinCost
      = 0 :=
  (get_offers_cascade true (some "k") (fun _ => .exn) (.error ())
    [[("sku", .str "mug"), ("quantity", .int 2)]] 3 "USD" _ rfl).2.2.2.2
    (.inr (by with_unfolding_all rfl)) (by with_unfolding_all rfl)

end SPA
